import Mathlib

/-!
Verification development for the ssherald repository.

The definitions below are shallow embeddings of the Rust sources:
  - `src/terminal/emulator.rs` (the `TerminalEmulator` state machine),
  - `src/ssh/forward.rs` (the embedded SOCKS5 server handshake),
  - `src/ssh/sftp.rs` (the `list_dir_async` directory listing transformation),
  - `src/ssh/session.rs` (the single-slot last-error store of `SshConnection`).

Rust `usize`/`u16`/`u8` values are modelled as `Nat`, with `% 256` inserted
wherever the source performs an `as u8` narrowing.  `Vec<T>` is modelled as
`List T`; `Vec::set`-style writes out of bounds (which would panic in Rust)
become no-ops of `List.set`, and reads out of bounds (also panics in Rust)
become `List.getD` with the default element.  The `vte` escape-sequence parser
is an external crate: the emulator is therefore embedded at the level of the
`Perform` callback events the parser delivers (`print`, `execute`,
`csi_dispatch`, `esc_dispatch`); a byte sequence fed to `process` corresponds
to some list of such events, and `process` itself only resets the view offset
before dispatching them.  The `parser` and `pending_data` fields of the Rust
struct are parser plumbing and are not part of the modelled state.
-/

/-- Terminal color, from `enum TermColor` in emulator.rs. -/
inductive TermColor where
  | default : TermColor
  | indexed (n : Nat) : TermColor
  | rgb (r g b : Nat) : TermColor
deriving DecidableEq, Repr

/-- Cell attributes, from `struct CellAttr` in emulator.rs. -/
structure CellAttr where
  fg : TermColor
  bg : TermColor
  bold : Bool
  italic : Bool
  underline : Bool
  inverse : Bool
deriving DecidableEq, Repr

/-- The `Default` impl for `CellAttr`. -/
def CellAttr.default : CellAttr :=
  { fg := .default, bg := .default, bold := false, italic := false,
    underline := false, inverse := false }

/-- One character cell, from `struct Cell` in emulator.rs. -/
structure Cell where
  c : Char
  attr : CellAttr
deriving DecidableEq, Repr

/-- The `Default` impl for `Cell`: a blank space with default attributes. -/
def Cell.default : Cell := { c := ' ', attr := CellAttr.default }

/-- The emulator state, from `struct TerminalEmulator` in emulator.rs
(without the `parser` and `pending_data` fields, which belong to the
external byte parser). -/
structure TerminalEmulator where
  grid : List (List Cell)
  cols : Nat
  rows : Nat
  cursor_row : Nat
  cursor_col : Nat
  cursor_visible : Bool
  saved_cursor : Option (Nat × Nat × CellAttr)
  current_attr : CellAttr
  scroll_top : Nat
  scroll_bottom : Nat
  scrollback : List (List Cell)
  scroll_offset : Nat
  alt_grid : Option (List (List Cell))
  alt_cursor : Option (Nat × Nat)
  app_cursor_keys : Bool
  auto_wrap : Bool
  wrap_next : Bool
  tab_stops : List Bool
deriving DecidableEq

/-- Tab stops installed by the constructor and by `resize`: `true` exactly at
multiples of 8 (the Rust `for i in (0..cols).step_by(8)` loop). -/
def mkTabStops (cols : Nat) : List Bool :=
  (List.range cols).map (fun i => i % 8 = 0)

/-- `TerminalEmulator::new(cols, rows)`. -/
def TerminalEmulator.new (cols rows : Nat) : TerminalEmulator :=
  { grid := List.replicate rows (List.replicate cols Cell.default)
    cols := cols
    rows := rows
    cursor_row := 0
    cursor_col := 0
    cursor_visible := true
    saved_cursor := none
    current_attr := CellAttr.default
    scroll_top := 0
    scroll_bottom := rows - 1
    scrollback := []
    scroll_offset := 0
    alt_grid := none
    alt_cursor := none
    app_cursor_keys := false
    auto_wrap := true
    wrap_next := false
    tab_stops := mkTabStops cols }

/-- The loop `for r in top..bottom { grid[r] = grid[r+1].clone() }` of
`scroll_up`, driven by an explicit iteration count. -/
def shiftRowsUpAux (fuel : Nat) (g : List (List Cell)) (r : Nat) : List (List Cell) :=
  match fuel with
  | 0 => g
  | f + 1 => shiftRowsUpAux f (g.set r (g.getD (r + 1) [])) (r + 1)

/-- The loop `for r in (top+1..=bottom).rev() { grid[r] = grid[r-1].clone() }`
of `scroll_down`, driven by an explicit iteration count, starting at `bottom`. -/
def shiftRowsDownAux (fuel : Nat) (g : List (List Cell)) (r : Nat) : List (List Cell) :=
  match fuel with
  | 0 => g
  | f + 1 => shiftRowsDownAux f (g.set r (g.getD (r - 1) [])) (r - 1)

/-- `TerminalEmulator::scroll_up`: push the top row to scrollback when the
scroll region starts at the whole-screen top and no alternate screen is
active, shift the region up by one, blank the bottom row of the region. -/
def TerminalEmulator.scroll_up (e : TerminalEmulator) : TerminalEmulator :=
  let top := e.scroll_top
  let bottom := e.scroll_bottom
  let e1 :=
    if top = 0 ∧ e.alt_grid = none then
      { e with scrollback := e.scrollback ++ [e.grid.getD 0 []] }
    else e
  let g := shiftRowsUpAux (bottom - top) e1.grid top
  { e1 with grid := g.set bottom (List.replicate e1.cols Cell.default) }

/-- `TerminalEmulator::scroll_down`: shift the scroll region down by one and
blank the top row of the region. -/
def TerminalEmulator.scroll_down (e : TerminalEmulator) : TerminalEmulator :=
  let top := e.scroll_top
  let bottom := e.scroll_bottom
  let g := shiftRowsDownAux (bottom - top) e.grid bottom
  { e with grid := g.set top (List.replicate e.cols Cell.default) }

/-- `TerminalEmulator::newline`. -/
def TerminalEmulator.newline (e : TerminalEmulator) : TerminalEmulator :=
  if e.cursor_row = e.scroll_bottom then e.scroll_up
  else if e.cursor_row < e.rows - 1 then { e with cursor_row := e.cursor_row + 1 }
  else e

/-- `TerminalEmulator::put_char`. -/
def TerminalEmulator.put_char (c : Char) (e : TerminalEmulator) : TerminalEmulator :=
  let e1 :=
    if e.wrap_next then
      { TerminalEmulator.newline { e with cursor_col := 0 } with wrap_next := false }
    else e
  let newRow := (e1.grid.getD e1.cursor_row []).set e1.cursor_col
    { c := c, attr := e1.current_attr }
  let e2 :=
    if e1.cursor_row < e1.rows ∧ e1.cursor_col < e1.cols then
      { e1 with grid := e1.grid.set e1.cursor_row newRow }
    else e1
  if e2.cursor_col < e2.cols - 1 then { e2 with cursor_col := e2.cursor_col + 1 }
  else if e2.auto_wrap then { e2 with wrap_next := true }
  else e2

/-- The loop `for c in c0.. { row[c] = Cell::default() }` over one row,
driven by an explicit iteration count. -/
def blankCellsLoop (fuel : Nat) (row : List Cell) (c : Nat) : List Cell :=
  match fuel with
  | 0 => row
  | f + 1 => blankCellsLoop f (row.set c Cell.default) (c + 1)

/-- The loop `for r in r0.. { grid[r] = vec![Cell::default(); cols] }`,
driven by an explicit iteration count. -/
def blankRowsLoop (fuel : Nat) (g : List (List Cell)) (r cols : Nat) : List (List Cell) :=
  match fuel with
  | 0 => g
  | f + 1 => blankRowsLoop f (g.set r (List.replicate cols Cell.default)) (r + 1) cols

/-- `TerminalEmulator::erase_in_display` (CSI J). -/
def TerminalEmulator.erase_in_display (mode : Nat) (e : TerminalEmulator) :
    TerminalEmulator :=
  if mode = 0 then
    let row0 := blankCellsLoop (e.cols - e.cursor_col) (e.grid.getD e.cursor_row []) e.cursor_col
    let g1 := e.grid.set e.cursor_row row0
    let g2 := blankRowsLoop (e.rows - (e.cursor_row + 1)) g1 (e.cursor_row + 1) e.cols
    { e with grid := g2 }
  else if mode = 1 then
    let g1 := blankRowsLoop e.cursor_row e.grid 0 e.cols
    let row0 := blankCellsLoop (min e.cursor_col (e.cols - 1) + 1) (g1.getD e.cursor_row []) 0
    { e with grid := g1.set e.cursor_row row0 }
  else if mode = 2 then
    { e with grid := blankRowsLoop e.rows e.grid 0 e.cols }
  else if mode = 3 then
    { e with grid := blankRowsLoop e.rows e.grid 0 e.cols, scrollback := [], scroll_offset := 0 }
  else e

/-- `TerminalEmulator::erase_in_line` (CSI K). -/
def TerminalEmulator.erase_in_line (mode : Nat) (e : TerminalEmulator) :
    TerminalEmulator :=
  if e.cursor_row ≥ e.rows then e
  else if mode = 0 then
    let row0 := blankCellsLoop (e.cols - e.cursor_col) (e.grid.getD e.cursor_row []) e.cursor_col
    { e with grid := e.grid.set e.cursor_row row0 }
  else if mode = 1 then
    let row0 := blankCellsLoop (min e.cursor_col (e.cols - 1) + 1) (e.grid.getD e.cursor_row []) 0
    { e with grid := e.grid.set e.cursor_row row0 }
  else if mode = 2 then
    { e with grid := e.grid.set e.cursor_row (List.replicate e.cols Cell.default) }
  else e

/-- The body of `TerminalEmulator::handle_sgr`, recursing over the parameter
list exactly as the Rust `while` loop walks index `i` (the `38`/`48`
sub-parameter forms consume extra parameters just as the index arithmetic
does, including the quirk that an incomplete `38;2;...` truecolor form leaves
the following parameters to be interpreted as fresh SGR codes). -/
def handleSgrLoop (a : CellAttr) : List Nat → CellAttr
  | [] => a
  | p :: rest =>
    if p = 0 then handleSgrLoop CellAttr.default rest
    else if p = 1 then handleSgrLoop { a with bold := true } rest
    else if p = 2 then handleSgrLoop a rest
    else if p = 3 then handleSgrLoop { a with italic := true } rest
    else if p = 4 then handleSgrLoop { a with underline := true } rest
    else if p = 7 then handleSgrLoop { a with inverse := true } rest
    else if p = 21 ∨ p = 22 then handleSgrLoop { a with bold := false } rest
    else if p = 23 then handleSgrLoop { a with italic := false } rest
    else if p = 24 then handleSgrLoop { a with underline := false } rest
    else if p = 27 then handleSgrLoop { a with inverse := false } rest
    else if 30 ≤ p ∧ p ≤ 37 then
      handleSgrLoop { a with fg := .indexed ((p - 30) % 256) } rest
    else if p = 38 then
      match rest with
      | 5 :: n :: rest2 => handleSgrLoop { a with fg := .indexed (n % 256) } rest2
      | 5 :: [] => a
      | 2 :: r :: g :: b :: rest2 =>
          handleSgrLoop { a with fg := .rgb (r % 256) (g % 256) (b % 256) } rest2
      | 2 :: rest2 => handleSgrLoop a rest2
      | _ :: rest2 => handleSgrLoop a rest2
      | [] => a
    else if p = 39 then handleSgrLoop { a with fg := .default } rest
    else if 40 ≤ p ∧ p ≤ 47 then
      handleSgrLoop { a with bg := .indexed ((p - 40) % 256) } rest
    else if p = 48 then
      match rest with
      | 5 :: n :: rest2 => handleSgrLoop { a with bg := .indexed (n % 256) } rest2
      | 5 :: [] => a
      | 2 :: r :: g :: b :: rest2 =>
          handleSgrLoop { a with bg := .rgb (r % 256) (g % 256) (b % 256) } rest2
      | 2 :: rest2 => handleSgrLoop a rest2
      | _ :: rest2 => handleSgrLoop a rest2
      | [] => a
    else if p = 49 then handleSgrLoop { a with bg := .default } rest
    else if 90 ≤ p ∧ p ≤ 97 then
      handleSgrLoop { a with fg := .indexed ((p - 90 + 8) % 256) } rest
    else if 100 ≤ p ∧ p ≤ 107 then
      handleSgrLoop { a with bg := .indexed ((p - 100 + 8) % 256) } rest
    else handleSgrLoop a rest

/-- `TerminalEmulator::handle_sgr`. -/
def TerminalEmulator.handle_sgr (params : List Nat) (e : TerminalEmulator) :
    TerminalEmulator :=
  if params = [] then { e with current_attr := CellAttr.default }
  else { e with current_attr := handleSgrLoop e.current_attr params }

/-- `TerminalEmulator::enter_alt_screen`. -/
def TerminalEmulator.enter_alt_screen (e : TerminalEmulator) : TerminalEmulator :=
  if e.alt_grid = none then
    { e with
      alt_grid := some e.grid
      grid := List.replicate e.rows (List.replicate e.cols Cell.default)
      alt_cursor := some (e.cursor_row, e.cursor_col)
      cursor_row := 0
      cursor_col := 0 }
  else e

/-- `TerminalEmulator::exit_alt_screen`. -/
def TerminalEmulator.exit_alt_screen (e : TerminalEmulator) : TerminalEmulator :=
  match e.alt_grid with
  | none => e
  | some g =>
    let e1 := { e with grid := g, alt_grid := none }
    match e1.alt_cursor with
    | none => e1
    | some (row, col) =>
      { e1 with
        alt_cursor := none
        cursor_row := min row (e1.rows - 1)
        cursor_col := min col (e1.cols - 1) }

/-- `TerminalEmulator::resize`. -/
def TerminalEmulator.resize (e : TerminalEmulator) (new_cols new_rows : Nat) :
    TerminalEmulator :=
  if new_cols = 0 ∨ new_rows = 0 ∨ (new_cols = e.cols ∧ new_rows = e.rows) then e
  else
    let copy_rows := min new_rows e.rows
    let copy_cols := min new_cols e.cols
    let e1 :=
      if e.cursor_row ≥ new_rows then
        let shift := e.cursor_row - new_rows + 1
        let sb := e.scrollback ++
          (((List.range shift).filter (fun i => i < e.rows)).map
            (fun i => e.grid.getD i []))
        let new_grid := (List.range new_rows).map (fun r =>
          (List.range new_cols).map (fun c =>
            if r < copy_rows ∧ r + shift < e.rows ∧ c < copy_cols then
              (e.grid.getD (r + shift) []).getD c Cell.default
            else Cell.default))
        { e with grid := new_grid, scrollback := sb, cursor_row := new_rows - 1 }
      else
        let new_grid := (List.range new_rows).map (fun r =>
          (List.range new_cols).map (fun c =>
            if r < copy_rows ∧ c < copy_cols then
              (e.grid.getD r []).getD c Cell.default
            else Cell.default))
        { e with grid := new_grid }
    { e1 with
      cols := new_cols
      rows := new_rows
      scroll_top := 0
      scroll_bottom := new_rows - 1
      cursor_col := min e1.cursor_col (new_cols - 1)
      tab_stops := mkTabStops new_cols }

/-- Insert an element at an index of a list; when the index exceeds the list
length the list is returned unchanged (Rust `Vec::insert` would panic there,
which the emulator invariants rule out). -/
def listInsertAt {α : Type} (n : Nat) (a : α) (l : List α) : List α :=
  match n, l with
  | 0, l => a :: l
  | _ + 1, [] => []
  | n + 1, x :: xs => x :: listInsertAt n a xs

/-- The loop of CSI `L` (IL, insert lines), one iteration per requested line. -/
def insertLinesLoop (fuel : Nat) (e : TerminalEmulator) : TerminalEmulator :=
  match fuel with
  | 0 => e
  | f + 1 =>
    let e1 :=
      if e.cursor_row ≤ e.scroll_bottom then
        let g1 := if e.scroll_bottom < e.grid.length then e.grid.eraseIdx e.scroll_bottom
                  else e.grid
        { e with grid := listInsertAt e.cursor_row (List.replicate e.cols Cell.default) g1 }
      else e
    insertLinesLoop f e1

/-- The loop of CSI `M` (DL, delete lines), one iteration per requested line. -/
def deleteLinesLoop (fuel : Nat) (e : TerminalEmulator) : TerminalEmulator :=
  match fuel with
  | 0 => e
  | f + 1 =>
    let e1 :=
      if e.cursor_row ≤ e.scroll_bottom then
        let g1 := e.grid.eraseIdx e.cursor_row
        { e with grid := listInsertAt e.scroll_bottom (List.replicate e.cols Cell.default) g1 }
      else e
    deleteLinesLoop f e1

/-- The loop of CSI `P` (DCH, delete characters) over the cursor row: remove
at the cursor column and push a blank at the end, `min n (cols - cursor_col)`
times. -/
def deleteCharsLoop (fuel : Nat) (row : List Cell) (col : Nat) : List Cell :=
  match fuel with
  | 0 => row
  | f + 1 =>
    let row1 := if col < row.length then (row.eraseIdx col) ++ [Cell.default] else row
    deleteCharsLoop f row1 col

/-- The loop of CSI `@` (ICH, insert characters) over the cursor row: drop the
last cell when the row is full, then insert a blank at the cursor column. -/
def insertCharsLoop (fuel : Nat) (row : List Cell) (col cols : Nat) : List Cell :=
  match fuel with
  | 0 => row
  | f + 1 =>
    let row1 := if row.length ≥ cols then row.dropLast else row
    insertCharsLoop f (listInsertAt col Cell.default row1) col cols

/-- The loop of CSI `S` (SU): `n` repetitions of `scroll_up`. -/
def scrollUpLoop (fuel : Nat) (e : TerminalEmulator) : TerminalEmulator :=
  match fuel with
  | 0 => e
  | f + 1 => scrollUpLoop f e.scroll_up

/-- The loop of CSI `T` (SD): `n` repetitions of `scroll_down`. -/
def scrollDownLoop (fuel : Nat) (e : TerminalEmulator) : TerminalEmulator :=
  match fuel with
  | 0 => e
  | f + 1 => scrollDownLoop f e.scroll_down

/-- One private-mode parameter of CSI `?...h` (SM). -/
def modeSetOne (e : TerminalEmulator) (p : Nat) : TerminalEmulator :=
  if p = 1 then { e with app_cursor_keys := true }
  else if p = 7 then { e with auto_wrap := true }
  else if p = 25 then { e with cursor_visible := true }
  else if p = 47 ∨ p = 1047 then e.enter_alt_screen
  else if p = 1049 then
    TerminalEmulator.enter_alt_screen
      { e with saved_cursor := some (e.cursor_row, e.cursor_col, e.current_attr) }
  else e

/-- One private-mode parameter of CSI `?...l` (RM). -/
def modeResetOne (e : TerminalEmulator) (p : Nat) : TerminalEmulator :=
  if p = 1 then { e with app_cursor_keys := false }
  else if p = 7 then { e with auto_wrap := false }
  else if p = 25 then { e with cursor_visible := false }
  else if p = 47 ∨ p = 1047 then e.exit_alt_screen
  else if p = 1049 then
    let e1 := e.exit_alt_screen
    match e1.saved_cursor with
    | none => e1
    | some (row, col, attr) =>
      { e1 with
        saved_cursor := none
        cursor_row := min row (e1.rows - 1)
        cursor_col := min col (e1.cols - 1)
        current_attr := attr }
  else e

/-- The flattened parameter list of a CSI sequence: the Rust code keeps only
the first item of every subparameter group, defaulting to 0. -/
def flatParams (params : List (List Nat)) : List Nat :=
  params.map (fun p => p.headD 0)

/-- `Perform::csi_dispatch` for `TerminalEmulator`.  `params` is the raw
parameter list delivered by the vte parser (each entry a subparameter group,
of which the Rust code keeps only the first item, defaulting to 0);
`intermediates` are the intermediate bytes (`?` is byte 63); `action` is the
final character. -/
def TerminalEmulator.csi_dispatch (params : List (List Nat)) (intermediates : List Nat)
    (action : Char) (e : TerminalEmulator) : TerminalEmulator :=
  let fp : List Nat := flatParams params
  let p1 := fp.headD 0
  let p2 := fp.getD 1 0
  let hasQ := intermediates.contains 63
  if action = 'A' then
    let n := if p1 = 0 then 1 else p1
    { e with cursor_row := e.cursor_row - n, wrap_next := false }
  else if action = 'B' then
    let n := if p1 = 0 then 1 else p1
    { e with cursor_row := min (e.cursor_row + n) (e.rows - 1), wrap_next := false }
  else if action = 'C' then
    let n := if p1 = 0 then 1 else p1
    { e with cursor_col := min (e.cursor_col + n) (e.cols - 1), wrap_next := false }
  else if action = 'D' then
    let n := if p1 = 0 then 1 else p1
    { e with cursor_col := e.cursor_col - n, wrap_next := false }
  else if action = 'E' then
    let n := if p1 = 0 then 1 else p1
    { e with cursor_row := min (e.cursor_row + n) (e.rows - 1), cursor_col := 0 }
  else if action = 'F' then
    let n := if p1 = 0 then 1 else p1
    { e with cursor_row := e.cursor_row - n, cursor_col := 0 }
  else if action = 'G' then
    let col := if p1 = 0 then 1 else p1
    { e with cursor_col := min (col - 1) (e.cols - 1), wrap_next := false }
  else if action = 'H' ∨ action = 'f' then
    let row := if p1 = 0 then 1 else p1
    let col := if p2 = 0 then 1 else p2
    { e with
      cursor_row := min (row - 1) (e.rows - 1)
      cursor_col := min (col - 1) (e.cols - 1)
      wrap_next := false }
  else if action = 'J' then e.erase_in_display p1
  else if action = 'K' then e.erase_in_line p1
  else if action = 'L' then
    insertLinesLoop (if p1 = 0 then 1 else p1) e
  else if action = 'M' then
    deleteLinesLoop (if p1 = 0 then 1 else p1) e
  else if action = 'P' then
    let n := if p1 = 0 then 1 else p1
    if e.cursor_row < e.rows then
      let row0 := deleteCharsLoop (min n (e.cols - e.cursor_col))
        (e.grid.getD e.cursor_row []) e.cursor_col
      { e with grid := e.grid.set e.cursor_row row0 }
    else e
  else if action = '@' then
    let n := if p1 = 0 then 1 else p1
    if e.cursor_row < e.rows then
      let row0 := insertCharsLoop n (e.grid.getD e.cursor_row []) e.cursor_col e.cols
      { e with grid := e.grid.set e.cursor_row row0 }
    else e
  else if action = 'S' then
    scrollUpLoop (if p1 = 0 then 1 else p1) e
  else if action = 'T' then
    if hasQ then e else scrollDownLoop (if p1 = 0 then 1 else p1) e
  else if action = 'X' then
    let n := if p1 = 0 then 1 else p1
    if e.cursor_row < e.rows then
      let row0 := blankCellsLoop (min (e.cursor_col + n) e.cols - e.cursor_col)
        (e.grid.getD e.cursor_row []) e.cursor_col
      { e with grid := e.grid.set e.cursor_row row0 }
    else e
  else if action = 'd' then
    let row := if p1 = 0 then 1 else p1
    { e with cursor_row := min (row - 1) (e.rows - 1), wrap_next := false }
  else if action = 'h' then
    if hasQ then fp.foldl modeSetOne e else e
  else if action = 'l' then
    if hasQ then fp.foldl modeResetOne e else e
  else if action = 'm' then
    if fp = [] then { e with current_attr := CellAttr.default }
    else e.handle_sgr fp
  else if action = 'n' then e
  else if action = 'r' then
    if hasQ then e
    else
      let top := if p1 = 0 then 1 else p1
      let bottom := if p2 = 0 then e.rows else p2
      let st := min (top - 1) (e.rows - 1)
      let sb := min (bottom - 1) (e.rows - 1)
      if st ≥ sb then
        { e with scroll_top := 0, scroll_bottom := e.rows - 1, cursor_row := 0, cursor_col := 0 }
      else
        { e with scroll_top := st, scroll_bottom := sb, cursor_row := st, cursor_col := 0 }
  else if action = 's' then
    if hasQ then e
    else { e with saved_cursor := some (e.cursor_row, e.cursor_col, e.current_attr) }
  else if action = 'u' then
    match e.saved_cursor with
    | none => e
    | some (row, col, attr) =>
      { e with
        cursor_row := min row (e.rows - 1)
        cursor_col := min col (e.cols - 1)
        current_attr := attr }
  else e

/-- `Perform::execute` for `TerminalEmulator` (C0 control bytes). -/
def TerminalEmulator.execByte (b : Nat) (e : TerminalEmulator) : TerminalEmulator :=
  if b = 8 then
    if e.cursor_col > 0 then { e with cursor_col := e.cursor_col - 1, wrap_next := false }
    else e
  else if b = 9 then
    let next_tab := (((List.range e.cols).drop (e.cursor_col + 1)).find?
      (fun c => e.tab_stops.getD c false)).getD (e.cols - 1)
    { e with cursor_col := next_tab, wrap_next := false }
  else if b = 10 ∨ b = 11 ∨ b = 12 then
    { e.newline with wrap_next := false }
  else if b = 13 then
    { e with cursor_col := 0, wrap_next := false }
  else e

/-- `Perform::esc_dispatch` for `TerminalEmulator`.  The Rust code ignores the
intermediate bytes and matches only on the final byte; byte 55 is `7`,
56 is `8`, 68 is `D`, 69 is `E`, 77 is `M`, 99 is `c`. -/
def TerminalEmulator.esc_dispatch (_intermediates : List Nat) (b : Nat)
    (e : TerminalEmulator) : TerminalEmulator :=
  if b = 55 then
    { e with saved_cursor := some (e.cursor_row, e.cursor_col, e.current_attr) }
  else if b = 56 then
    match e.saved_cursor with
    | none => e
    | some (row, col, attr) =>
      { e with
        cursor_row := min row (e.rows - 1)
        cursor_col := min col (e.cols - 1)
        current_attr := attr }
  else if b = 68 then e.newline
  else if b = 69 then TerminalEmulator.newline { e with cursor_col := 0 }
  else if b = 77 then
    if e.cursor_row = e.scroll_top then e.scroll_down
    else if e.cursor_row > 0 then { e with cursor_row := e.cursor_row - 1 }
    else e
  else if b = 99 then
    TerminalEmulator.new e.cols e.rows
  else e

/-- One callback event delivered by the external vte parser while `process`
feeds it bytes. -/
inductive Event where
  | print (c : Char) : Event
  | execute (b : Nat) : Event
  | csi (params : List (List Nat)) (intermediates : List Nat) (action : Char) : Event
  | esc (intermediates : List Nat) (b : Nat) : Event
deriving DecidableEq

/-- Dispatch of one parser event to the emulator, mirroring the
`impl Perform for TerminalEmulator` block. -/
def TerminalEmulator.applyEvent (e : TerminalEmulator) : Event → TerminalEmulator
  | .print c => e.put_char c
  | .execute b => e.execByte b
  | .csi ps ins a => e.csi_dispatch ps ins a
  | .esc ins b => e.esc_dispatch ins b

/-- `TerminalEmulator::process`, at the granularity of parser events: reset
the view offset to zero, then dispatch every event the byte stream produced. -/
def TerminalEmulator.processEvents (e : TerminalEmulator) (evs : List Event) :
    TerminalEmulator :=
  evs.foldl TerminalEmulator.applyEvent { e with scroll_offset := 0 }

/-- A run of printable characters dispatched one by one, as the vte parser
does for a plain text segment. -/
def printRun (e : TerminalEmulator) (L : List Char) : TerminalEmulator :=
  L.foldl (fun s ch => s.put_char ch) e

/-! ### C4 and C10: alternate-screen preservation machinery -/

/-- Events that can leave the alternate screen or destroy it: CSI `? ... l`
with one of the alternate-screen parameters 47, 1047, 1049, and the RIS full
reset (ESC `c`). -/
def altExiting : Event → Bool
  | .esc _ b => b = 99
  | .csi ps ins a =>
      a = 'l' && ins.contains 63 &&
        (flatParams ps).any (fun p => p = 47 || p = 1047 || p = 1049)
  | _ => false

/-- State relation used for the alternate-screen claims: the alternate
grid and cursor slots, and the dimensions, are preserved exactly, and the
scrollback never grows. -/
def AltPres (e t : TerminalEmulator) : Prop :=
  t.alt_grid = e.alt_grid ∧ t.alt_cursor = e.alt_cursor ∧ t.cols = e.cols ∧
  t.rows = e.rows ∧ t.scrollback.length ≤ e.scrollback.length

/-! ### SOCKS5 server handshake (src/ssh/forward.rs, handle_socks5_client) -/

/-- Read exactly `n` bytes from the stream (modelled as the list of bytes
the client will send); `none` models `read_exact` failing because the
client closed the connection early. -/
def readExact (n : Nat) (input : List Nat) : Option (List Nat × List Nat) :=
  match n, input with
  | 0, xs => some ([], xs)
  | _ + 1, [] => none
  | n + 1, x :: xs => (readExact n xs).map (fun p => (x :: p.1, p.2))

/-- Destination resolved from the SOCKS5 request, carrying the raw bytes of
the chosen encoding (the Rust code renders these to a string before opening
the direct channel; the rendering is injective for the IPv4 and IPv6 forms
and immaterial to the reply bytes, so the channel-open oracle below receives
the decoded form directly). -/
inductive Socks5Dest where
  | ipv4 (a b c d : Nat) : Socks5Dest
  | domain (bytes : List Nat) : Socks5Dest
  | ipv6 (bytes : List Nat) : Socks5Dest
deriving DecidableEq, Repr

/-- How the handshake ended: a protocol error (the Rust function returned
`Err` and the connection is dropped), or success, after which the function
relays bytes between the TCP stream and the direct channel it opened. -/
inductive Socks5Outcome where
  | protoErr : Socks5Outcome
  | relay (dest : Socks5Dest) (port : Nat) : Socks5Outcome
deriving DecidableEq, Repr

/-- Result of the handshake phase: the bytes written back to the client, the
outcome, and the portion of the client's bytes not yet consumed when the
handshake phase ended. -/
structure Socks5Result where
  written : List Nat
  outcome : Socks5Outcome
  remaining : List Nat
deriving DecidableEq, Repr

/-- Open the direct channel and send the final reply, from the tail of
`handle_socks5_client`.  `connectOk` is the oracle standing for
`session.channel_open_direct_tcpip` succeeding for the resolved
destination. -/
def socks5Finish (connectOk : Socks5Dest → Nat → Bool) (dest : Socks5Dest)
    (port : Nat) (rem : List Nat) : Socks5Result :=
  if connectOk dest port then
    { written := [5, 0, 0, 1, 0, 0, 0, 0, 0, 0], outcome := .relay dest port,
      remaining := rem }
  else
    { written := [5, 5, 0, 1, 0, 0, 0, 0, 0, 0], outcome := .protoErr,
      remaining := rem }

/-- Destination resolution of `handle_socks5_client` (the `match req_header[3]`
block): read the address bytes for the given address-type byte and the
2-byte big-endian port, then open the channel and reply; an unknown
address-type byte receives reply code 8. -/
def socks5ReadDest (connectOk : Socks5Dest → Nat → Bool) (atyp : Nat)
    (rest3 : List Nat) : Socks5Result :=
  if atyp = 1 then
    match readExact 4 rest3 with
    | none => { written := [], outcome := .protoErr, remaining := [] }
    | some (addr, rest4) =>
      match readExact 2 rest4 with
      | none => { written := [], outcome := .protoErr, remaining := [] }
      | some (pb, rest5) =>
        socks5Finish connectOk
          (.ipv4 (addr.getD 0 0) (addr.getD 1 0) (addr.getD 2 0) (addr.getD 3 0))
          (256 * pb.getD 0 0 + pb.getD 1 0) rest5
  else if atyp = 3 then
    match readExact 1 rest3 with
    | none => { written := [], outcome := .protoErr, remaining := [] }
    | some (lenb, rest4) =>
      match readExact (lenb.getD 0 0) rest4 with
      | none => { written := [], outcome := .protoErr, remaining := [] }
      | some (dom, rest5) =>
        match readExact 2 rest5 with
        | none => { written := [], outcome := .protoErr, remaining := [] }
        | some (pb, rest6) =>
          socks5Finish connectOk (.domain dom) (256 * pb.getD 0 0 + pb.getD 1 0) rest6
  else if atyp = 4 then
    match readExact 16 rest3 with
    | none => { written := [], outcome := .protoErr, remaining := [] }
    | some (addr, rest4) =>
      match readExact 2 rest4 with
      | none => { written := [], outcome := .protoErr, remaining := [] }
      | some (pb, rest5) =>
        socks5Finish connectOk (.ipv6 addr) (256 * pb.getD 0 0 + pb.getD 1 0) rest5
  else
    { written := [5, 8, 0, 1, 0, 0, 0, 0, 0, 0],
      outcome := .protoErr, remaining := rest3 }

/-- Request handling of `handle_socks5_client`: reject any version other
than 5 or any command other than CONNECT (1) with reply code 7, then
resolve the destination. -/
def socks5AfterRequest (connectOk : Socks5Dest → Nat → Bool) (req rest3 : List Nat) :
    Socks5Result :=
  if req.getD 0 0 ≠ 5 ∨ req.getD 1 0 ≠ 1 then
    { written := [5, 7, 0, 1, 0, 0, 0, 0, 0, 0],
      outcome := .protoErr, remaining := rest3 }
  else socks5ReadDest connectOk (req.getD 3 0) rest3

/-- Method negotiation of `handle_socks5_client`: a method list not offering
0 receives exactly `[5, 255]` and the function returns without reading a
request; otherwise `[5, 0]` is sent and the 4-byte request header is read. -/
def socks5AfterMethods (connectOk : Socks5Dest → Nat → Bool) (methods rest2 : List Nat) :
    Socks5Result :=
  if ¬ methods.contains 0 then
    { written := [5, 255], outcome := .protoErr, remaining := rest2 }
  else
    let r : Socks5Result :=
      match readExact 4 rest2 with
      | none => { written := [], outcome := .protoErr, remaining := [] }
      | some (req, rest3) => socks5AfterRequest connectOk req rest3
    { r with written := [5, 0] ++ r.written }

/-- `handle_socks5_client` from forward.rs, as a pure function of the bytes
the client sends and the channel-open oracle `connectOk` standing for
`session.channel_open_direct_tcpip` succeeding.  Each write the Rust code
performs is appended to `written` in order; each `return Err(...)` becomes
outcome `protoErr`; `remaining` is the unread part of the client bytes when
the handshake phase ends. -/
def handle_socks5_client (connectOk : Socks5Dest → Nat → Bool) (input : List Nat) :
    Socks5Result :=
  match readExact 2 input with
  | none => { written := [], outcome := .protoErr, remaining := [] }
  | some (hdr, rest) =>
    if hdr.getD 0 0 ≠ 5 then { written := [], outcome := .protoErr, remaining := rest }
    else
      match readExact (hdr.getD 1 0) rest with
      | none => { written := [], outcome := .protoErr, remaining := [] }
      | some (methods, rest2) => socks5AfterMethods connectOk methods rest2

/-! ### SFTP directory listing (src/ssh/sftp.rs, list_dir_async) -/

/-- The data `list_dir_async` reads from each `russh_sftp` directory entry:
the file name, whether the metadata marks a directory, the length, and the
modification time already converted to seconds (the conversion chain on
`SystemTime` is external library code).  Strings are modelled as lists of
characters; Rust compares strings by their UTF-8 bytes, which orders them
exactly like code points. -/
structure SftpRawEntry where
  name : List Char
  is_dir : Bool
  size : Nat
  modified : Option Nat
deriving DecidableEq, Repr

/-- `struct SftpEntry` from sftp.rs. -/
structure SftpEntry where
  name : List Char
  path : List Char
  is_dir : Bool
  size : Nat
  modified : Option Nat
deriving DecidableEq, Repr

/-- `str::trim_end_matches('/')`: remove every trailing slash. -/
def trimEndSlashes (p : List Char) : List Char :=
  (p.reverse.dropWhile (fun c => c = '/')).reverse

/-- `char` comparison by code point, as Rust `Ord` on `char` (and, through
UTF-8, on `String`). -/
def charCmp (a b : Char) : Ordering :=
  if a.toNat < b.toNat then .lt else if b.toNat < a.toNat then .gt else .eq

/-- Lexicographic comparison of names, as Rust `Ord` on `String`. -/
def listCmp : List Char → List Char → Ordering
  | [], [] => .eq
  | [], _ :: _ => .lt
  | _ :: _, [] => .gt
  | x :: xs, y :: ys =>
    match charCmp x y with
    | .eq => listCmp xs ys
    | o => o

/-- Rust `Ord` on `bool`: `false < true`. -/
def boolCmp (a b : Bool) : Ordering :=
  if a = b then .eq else if b then .lt else .gt

/-- The comparator of `list_dir_async`:
`b.is_dir.cmp(&a.is_dir).then(a.name.cmp(&b.name))` — directories first,
then names ascending. -/
def entryCmp (a b : SftpEntry) : Ordering :=
  match boolCmp b.is_dir a.is_dir with
  | .eq => listCmp a.name b.name
  | o => o

/-- Insertion of one element into a list sorted by `entryCmp`, placing it
before the first element it does not compare `Greater` to.  `Vec::sort_by`
is a stable sort under a total preorder comparator, and this insertion sort
is the same stable sort, so the resulting list is identical. -/
def insertSorted (a : SftpEntry) : List SftpEntry → List SftpEntry
  | [] => [a]
  | b :: bs => if entryCmp a b = .gt then b :: insertSorted a bs else a :: b :: bs

/-- Stable sort by `entryCmp`, modelling `result.sort_by(...)`. -/
def sortEntries : List SftpEntry → List SftpEntry
  | [] => []
  | a :: l => insertSorted a (sortEntries l)

/-- `list_dir_async` from sftp.rs as a pure function of the raw entries the
server returned: drop `.` and `..`, join the parent path and the entry name
(the root `/` is special-cased to avoid a doubled separator), and sort with
directories first, then by name. -/
def list_dir (path : List Char) (entries : List SftpRawEntry) : List SftpEntry :=
  sortEntries (entries.filterMap (fun en =>
    if en.name = ['.'] ∨ en.name = ['.', '.'] then none
    else some { name := en.name
                path := if path = ['/'] then '/' :: en.name
                        else trimEndSlashes path ++ '/' :: en.name
                is_dir := en.is_dir
                size := en.size
                modified := en.modified }))

/-- The spec-level order: directories strictly before files, names
ascending within each group. -/
def specLe (a b : SftpEntry) : Prop :=
  (a.is_dir = true ∧ b.is_dir = false) ∨
  (a.is_dir = b.is_dir ∧ listCmp a.name b.name ≠ .gt)

/-! ### Shell session last-error slot (src/ssh/session.rs) -/

/-- The owner-visible state of `SshConnection`: the liveness flag and the
mutex-guarded single last-error slot (`Arc<Mutex<Option<String>>>`).  The
channel endpoints are I/O plumbing and not part of the modelled state. -/
structure SshConnectionState where
  alive : Bool
  error : Option String
deriving DecidableEq

/-- `SshConnection::take_error`: `self.error.lock().take()` — return the
slot's content and leave the slot empty. -/
def take_error (s : SshConnectionState) : Option String × SshConnectionState :=
  (s.error, { s with error := none })

/-- How the background session thread records a failure:
`*error_clone.lock() = Some(msg)` — the single slot is overwritten, never
queued (both the runtime-creation failure and the session-loop error in
`SshConnection::new` write this way). -/
def record_error (s : SshConnectionState) (msg : String) : SshConnectionState :=
  { s with error := some msg }

/-! ### Basic list access lemmas used throughout -/

theorem getD_set_self {α : Type} (l : List α) (i : Nat) (v d : α) :
    (l.set i v).getD i d = if i < l.length then v else d := by
  simp [List.getD_eq_getElem?_getD, List.getElem?_set]
  split <;> simp_all

theorem getD_set_ne {α : Type} (l : List α) {i j : Nat} (v d : α) (h : i ≠ j) :
    (l.set i v).getD j d = l.getD j d := by
  simp [List.getD_eq_getElem?_getD, List.getElem?_set, h]

theorem getD_map_range {α : Type} (n i : Nat) (f : Nat → α) (d : α) :
    (((List.range n).map f).getD i d) = if i < n then f i else d := by
  by_cases h : i < n
  · simp [List.getD_eq_getElem?_getD, List.getElem?_map, List.getElem?_range h, h]
  · have h0 : (List.range n)[i]? = none :=
      List.getElem?_eq_none (by simpa using Nat.le_of_not_lt h)
    simp [List.getD_eq_getElem?_getD, List.getElem?_map, h0, h]

/-! ### Characterisation of the scroll loops -/

theorem shiftRowsUpAux_length (fuel : Nat) (g : List (List Cell)) (r : Nat) :
    (shiftRowsUpAux fuel g r).length = g.length := by
  induction fuel generalizing g r with
  | zero => rfl
  | succ f ih => simp [shiftRowsUpAux, ih]

theorem shiftRowsUpAux_getD (fuel : Nat) (g : List (List Cell)) (r i : Nat) :
    (shiftRowsUpAux fuel g r).getD i [] =
      if r ≤ i ∧ i < r + fuel then g.getD (i + 1) [] else g.getD i [] := by
  induction fuel generalizing g r with
  | zero =>
    simp only [shiftRowsUpAux]
    rw [if_neg (by omega)]
  | succ f ih =>
    rw [shiftRowsUpAux, ih]
    by_cases hi : i = r
    · subst hi
      rw [if_neg (by omega), if_pos (by omega)]
      rw [getD_set_self]
      by_cases hl : i < g.length
      · rw [if_pos hl]
      · rw [if_neg hl]
        symm
        rw [List.getD_eq_getElem?_getD,
          List.getElem?_eq_none (by omega : g.length ≤ i + 1)]
        rfl
    · by_cases h1 : r + 1 ≤ i ∧ i < r + 1 + f
      · rw [if_pos h1, if_pos (by omega)]
        rw [getD_set_ne _ _ _ (by omega : r ≠ i + 1)]
      · rw [if_neg h1]
        rw [getD_set_ne _ _ _ (fun h => hi h.symm)]
        rw [if_neg (by omega)]

theorem shiftRowsDownAux_length (fuel : Nat) (g : List (List Cell)) (r : Nat) :
    (shiftRowsDownAux fuel g r).length = g.length := by
  induction fuel generalizing g r with
  | zero => rfl
  | succ f ih => simp [shiftRowsDownAux, ih]

theorem blankCellsLoop_length (fuel : Nat) (row : List Cell) (c : Nat) :
    (blankCellsLoop fuel row c).length = row.length := by
  induction fuel generalizing row c with
  | zero => rfl
  | succ f ih => simp [blankCellsLoop, ih]

theorem blankRowsLoop_length (fuel : Nat) (g : List (List Cell)) (r cols : Nat) :
    (blankRowsLoop fuel g r cols).length = g.length := by
  induction fuel generalizing g r with
  | zero => rfl
  | succ f ih => simp [blankRowsLoop, ih]

/-- Row-level description of the grid produced by `scroll_up`. -/
theorem scroll_up_grid_core (g : List (List Cell)) (top bottom cols : Nat)
    (hb : bottom < g.length) (i : Nat) :
    ((shiftRowsUpAux (bottom - top) g top).set bottom
        (List.replicate cols Cell.default)).getD i [] =
      if i = bottom then List.replicate cols Cell.default
      else if top ≤ i ∧ i < bottom then g.getD (i + 1) [] else g.getD i [] := by
  by_cases hib : i = bottom
  · subst hib
    rw [getD_set_self, shiftRowsUpAux_length, if_pos hb, if_pos rfl]
  · rw [getD_set_ne _ _ _ (fun h => hib h.symm), shiftRowsUpAux_getD]
    by_cases h1 : top ≤ i ∧ i < top + (bottom - top)
    · rw [if_pos h1, if_neg hib, if_pos (by omega)]
    · rw [if_neg h1, if_neg hib, if_neg (by omega)]

/-- Field-level description of `scroll_up`: every field except `grid` and
`scrollback` is untouched; the scrollback grows by the old top screen row
exactly when the scroll region starts at row 0 on the primary screen; the
grid shifts the region from `scroll_top` to `scroll_bottom` up by one and
blanks its bottom row. -/
theorem scroll_up_spec (e : TerminalEmulator) (hb : e.scroll_bottom < e.grid.length) :
    (e.scroll_up.cols = e.cols ∧ e.scroll_up.rows = e.rows ∧
     e.scroll_up.cursor_row = e.cursor_row ∧ e.scroll_up.cursor_col = e.cursor_col ∧
     e.scroll_up.scroll_top = e.scroll_top ∧ e.scroll_up.scroll_bottom = e.scroll_bottom ∧
     e.scroll_up.alt_grid = e.alt_grid ∧ e.scroll_up.alt_cursor = e.alt_cursor ∧
     e.scroll_up.wrap_next = e.wrap_next ∧ e.scroll_up.auto_wrap = e.auto_wrap ∧
     e.scroll_up.current_attr = e.current_attr ∧
     e.scroll_up.saved_cursor = e.saved_cursor ∧
     e.scroll_up.scroll_offset = e.scroll_offset) ∧
    e.scroll_up.grid.length = e.grid.length ∧
    e.scroll_up.scrollback =
      (if e.scroll_top = 0 ∧ e.alt_grid = none then e.scrollback ++ [e.grid.getD 0 []]
       else e.scrollback) ∧
    (∀ i, e.scroll_up.grid.getD i [] =
      if i = e.scroll_bottom then List.replicate e.cols Cell.default
      else if e.scroll_top ≤ i ∧ i < e.scroll_bottom then e.grid.getD (i + 1) []
      else e.grid.getD i []) := by
  by_cases hc : e.scroll_top = 0 ∧ e.alt_grid = none
  · simp only [TerminalEmulator.scroll_up, if_pos hc]
    refine ⟨by simp, ?_, ?_, ?_⟩
    · simp [shiftRowsUpAux_length]
    · simp [hc]
    · intro i
      exact scroll_up_grid_core e.grid e.scroll_top e.scroll_bottom e.cols hb i
  · simp only [TerminalEmulator.scroll_up, if_neg hc]
    refine ⟨by simp, ?_, ?_, ?_⟩
    · simp [shiftRowsUpAux_length]
    · simp [hc]
    · intro i
      exact scroll_up_grid_core e.grid e.scroll_top e.scroll_bottom e.cols hb i

/-! ### C3: full reset -/

/-- C3: processing the RIS full-reset escape (ESC `c`, final byte 99) from
any emulator state yields exactly a freshly constructed emulator at the
current dimensions: empty grid, empty scrollback, no alternate screen, no
saved cursor, default attributes. -/
theorem ris_full_reset (e : TerminalEmulator) (ins : List Nat) :
    e.processEvents [Event.esc ins 99] = TerminalEmulator.new e.cols e.rows ∧
    (e.processEvents [Event.esc ins 99]).grid =
      List.replicate e.rows (List.replicate e.cols Cell.default) ∧
    (e.processEvents [Event.esc ins 99]).scrollback = [] ∧
    (e.processEvents [Event.esc ins 99]).alt_grid = none ∧
    (e.processEvents [Event.esc ins 99]).saved_cursor = none ∧
    (e.processEvents [Event.esc ins 99]).current_attr = CellAttr.default := by
  have h : e.processEvents [Event.esc ins 99] = TerminalEmulator.new e.cols e.rows := by
    simp [TerminalEmulator.processEvents, TerminalEmulator.applyEvent,
      TerminalEmulator.esc_dispatch]
  refine ⟨h, ?_, ?_, ?_, ?_, ?_⟩ <;> rw [h] <;> rfl

/-! ### C1: the grid-shape invariant is broken by resize while the
alternate screen is active -/

/-- C1 (failing input): from a 2 by 2 emulator, entering the alternate
screen, resizing to 3 by 3, and leaving the alternate screen restores the
stale 2 by 2 primary grid while the dimensions report 3 by 3, so the grid is
no longer `rows` rows of `cols` cells.  A following cursor-down by 2 (CSI 2 B)
clamps the cursor to row 2, which passes the `cursor_row < rows` guard of
`put_char` yet lies outside the 2-row grid: at that point the Rust code
indexes `self.grid[2]` and panics. -/
theorem resize_during_alt_screen_breaks_grid_invariant :
    ((((TerminalEmulator.new 2 2).processEvents
      [Event.csi [[47]] [63] 'h']).resize 3 3).processEvents
        [Event.csi [[47]] [63] 'l']).rows = 3 ∧
    ((((TerminalEmulator.new 2 2).processEvents
      [Event.csi [[47]] [63] 'h']).resize 3 3).processEvents
        [Event.csi [[47]] [63] 'l']).cols = 3 ∧
    ((((TerminalEmulator.new 2 2).processEvents
      [Event.csi [[47]] [63] 'h']).resize 3 3).processEvents
        [Event.csi [[47]] [63] 'l']).grid.length = 2 ∧
    (((((TerminalEmulator.new 2 2).processEvents
      [Event.csi [[47]] [63] 'h']).resize 3 3).processEvents
        [Event.csi [[47]] [63] 'l']).processEvents
          [Event.csi [[2]] [] 'B']).cursor_row = 2 ∧
    (((((TerminalEmulator.new 2 2).processEvents
      [Event.csi [[47]] [63] 'h']).resize 3 3).processEvents
        [Event.csi [[47]] [63] 'l']).processEvents
          [Event.csi [[2]] [] 'B']).cursor_row <
      (((((TerminalEmulator.new 2 2).processEvents
        [Event.csi [[47]] [63] 'h']).resize 3 3).processEvents
          [Event.csi [[47]] [63] 'l']).processEvents
            [Event.csi [[2]] [] 'B']).rows ∧
    (((((TerminalEmulator.new 2 2).processEvents
      [Event.csi [[47]] [63] 'h']).resize 3 3).processEvents
        [Event.csi [[47]] [63] 'l']).processEvents
          [Event.csi [[2]] [] 'B']).grid.length = 2 := by
  decide

/-! ### C2: resize -/

/-- C2 (amended): for cols, rows at least 1, resizing then querying the
dimensions returns exactly those values; resize is a no-op when the
dimensions are unchanged or either argument is zero; and, provided the
cursor row still fits inside the new height, the top-left overlapping
region of cell content is preserved.  (When the cursor row would fall
outside the smaller grid, the code instead scrolls rows off the top into
scrollback and the surviving content shifts up, see the counterexample.) -/
theorem resize_dims_and_topleft (e : TerminalEmulator) (nc nr : Nat) :
    (1 ≤ nc → 1 ≤ nr → (e.resize nc nr).cols = nc ∧ (e.resize nc nr).rows = nr) ∧
    e.resize e.cols e.rows = e ∧
    e.resize 0 nr = e ∧ e.resize nc 0 = e ∧
    (e.cursor_row < nr → ∀ r c, r < min nr e.rows → c < min nc e.cols →
      ((e.resize nc nr).grid.getD r []).getD c Cell.default =
        (e.grid.getD r []).getD c Cell.default) := by
  refine ⟨?_, ?_, ?_, ?_, ?_⟩
  · intro h1 h2
    unfold TerminalEmulator.resize
    by_cases hg : nc = 0 ∨ nr = 0 ∨ (nc = e.cols ∧ nr = e.rows)
    · rw [if_pos hg]
      rcases hg with h | h | ⟨ha, hb⟩
      · omega
      · omega
      · exact ⟨ha.symm, hb.symm⟩
    · rw [if_neg hg]
      exact ⟨rfl, rfl⟩
  · unfold TerminalEmulator.resize
    rw [if_pos (Or.inr (Or.inr ⟨rfl, rfl⟩))]
  · unfold TerminalEmulator.resize
    rw [if_pos (Or.inl rfl)]
  · unfold TerminalEmulator.resize
    rw [if_pos (Or.inr (Or.inl rfl))]
  · intro hcur r c hr hc
    by_cases hg : nc = 0 ∨ nr = 0 ∨ (nc = e.cols ∧ nr = e.rows)
    · unfold TerminalEmulator.resize
      rw [if_pos hg]
    · have hcr : ¬ (e.cursor_row ≥ nr) := by omega
      simp only [TerminalEmulator.resize, if_neg hg, if_neg hcr]
      rw [getD_map_range, if_pos (by omega : r < nr), getD_map_range,
        if_pos (by omega : c < nc), if_pos ⟨by omega, by omega⟩]

/-- C2 (counterexample to the claim as stated): shrinking the height below
the cursor row does not preserve the top-left overlapping region.  With a 2 by
2 emulator holding `A` at the top left and the cursor on row 1, `resize(2, 1)`
has both arguments nonzero, changes the dimensions, and the surviving row 0
of the 2 by 1 overlap region is the old row 1, not the old row 0: the cell at
(0,0) changes from `A` to blank. -/
theorem resize_shrink_shifts_content :
    ((TerminalEmulator.new 2 2).processEvents [Event.print 'A', Event.execute 10]).cols = 2 ∧
    ((TerminalEmulator.new 2 2).processEvents [Event.print 'A', Event.execute 10]).rows = 2 ∧
    ((TerminalEmulator.new 2 2).processEvents
      [Event.print 'A', Event.execute 10]).cursor_row = 1 ∧
    (((TerminalEmulator.new 2 2).processEvents
      [Event.print 'A', Event.execute 10]).resize 2 1).cols = 2 ∧
    (((TerminalEmulator.new 2 2).processEvents
      [Event.print 'A', Event.execute 10]).resize 2 1).rows = 1 ∧
    ((((TerminalEmulator.new 2 2).processEvents
      [Event.print 'A', Event.execute 10]).grid.getD 0 []).getD 0 Cell.default).c = 'A' ∧
    (((((TerminalEmulator.new 2 2).processEvents
      [Event.print 'A', Event.execute 10]).resize 2 1).grid.getD 0 []).getD 0
        Cell.default).c = ' ' := by
  decide

/-- Witness for `resize_dims_and_topleft` at a concrete input. -/
theorem resize_dims_and_topleft_witness :
    (((TerminalEmulator.new 3 3).processEvents [Event.print 'Z']).resize 2 2).cols = 2 ∧
    (((TerminalEmulator.new 3 3).processEvents [Event.print 'Z']).resize 2 2).rows = 2 ∧
    ((((TerminalEmulator.new 3 3).processEvents [Event.print 'Z']).resize 2 2).grid.getD 0 []).getD 0 Cell.default =
      ((((TerminalEmulator.new 3 3).processEvents [Event.print 'Z']).grid.getD 0 []).getD 0 Cell.default) := by
  refine ⟨((resize_dims_and_topleft _ 2 2).1 (by decide) (by decide)).1,
    ((resize_dims_and_topleft _ 2 2).1 (by decide) (by decide)).2,
    (resize_dims_and_topleft ((TerminalEmulator.new 3 3).processEvents [Event.print 'Z']) 2 2).2.2.2.2
      (by decide) 0 0 (by decide) (by decide)⟩

/-! ### C5: deferred auto-wrap -/

theorem set_row_getD_ne (g : List (List Cell)) (r : Nat) (row : List Cell) (i : Nat)
    (hi : i ≠ r) : (g.set r row).getD i [] = g.getD i [] :=
  getD_set_ne g row [] (fun h => hi h.symm)

theorem set_row_getD_len (g : List (List Cell)) (r : Nat) (row : List Cell)
    (hlen : row.length = (g.getD r []).length) (i : Nat) :
    ((g.set r row).getD i []).length = (g.getD i []).length := by
  by_cases hi : i = r
  · subst hi
    rw [getD_set_self]
    by_cases hl : i < g.length
    · rw [if_pos hl, hlen]
    · rw [if_neg hl]
      have : g.getD i [] = [] := by
        rw [List.getD_eq_getElem?_getD, List.getElem?_eq_none (by omega)]
        rfl
      rw [this]
  · rw [set_row_getD_ne g r row i hi]

theorem put_char_no_wrap_fields (e : TerminalEmulator) (ch : Char)
    (hw : e.wrap_next = false) :
    (e.put_char ch).cursor_row = e.cursor_row ∧
    (e.put_char ch).scrollback = e.scrollback ∧
    (e.put_char ch).rows = e.rows ∧ (e.put_char ch).cols = e.cols ∧
    (e.put_char ch).scroll_top = e.scroll_top ∧
    (e.put_char ch).scroll_bottom = e.scroll_bottom ∧
    (e.put_char ch).auto_wrap = e.auto_wrap ∧
    (e.put_char ch).alt_grid = e.alt_grid ∧
    (e.put_char ch).alt_cursor = e.alt_cursor ∧
    (e.put_char ch).current_attr = e.current_attr := by
  simp only [TerminalEmulator.put_char, hw, Bool.false_eq_true, if_false]
  split_ifs <;> simp

theorem put_char_no_wrap_cursor (e : TerminalEmulator) (ch : Char)
    (hw : e.wrap_next = false) (hcc : e.cursor_col < e.cols) :
    if e.cursor_col + 1 < e.cols
      then (e.put_char ch).cursor_col = e.cursor_col + 1 ∧ (e.put_char ch).wrap_next = false
      else (e.put_char ch).cursor_col = e.cursor_col ∧
        (e.put_char ch).wrap_next = e.auto_wrap := by
  simp only [TerminalEmulator.put_char, hw, Bool.false_eq_true, if_false]
  split_ifs <;> simp_all <;> omega

theorem put_char_no_wrap_grid (e : TerminalEmulator) (ch : Char)
    (hw : e.wrap_next = false) :
    (e.put_char ch).grid.length = e.grid.length ∧
    (∀ i, i ≠ e.cursor_row → (e.put_char ch).grid.getD i [] = e.grid.getD i []) ∧
    (∀ i, ((e.put_char ch).grid.getD i []).length = (e.grid.getD i []).length) := by
  simp only [TerminalEmulator.put_char, hw, Bool.false_eq_true, if_false]
  split_ifs <;>
    refine ⟨by simp, fun i hi => ?_, fun i => ?_⟩ <;>
    first
      | rfl
      | exact set_row_getD_ne _ _ _ _ hi
      | exact set_row_getD_len _ _ _ (List.length_set _ _ _) i

/-- Effect of printing a run that fits from the current column up to the
right margin, with no wrap pending: the cursor advances, and when the run
reaches the margin exactly, only the pending-wrap flag is raised — the
cursor row, every other grid row, the scrollback and the dimensions are all
untouched. -/
theorem print_run_spec (L : List Char) (e : TerminalEmulator)
    (hw : e.wrap_next = false) (hcc : e.cursor_col < e.cols)
    (hlen : e.cursor_col + L.length ≤ e.cols) (hauto : e.auto_wrap = true) :
    (if e.cursor_col + L.length < e.cols
      then (printRun e L).cursor_col = e.cursor_col + L.length ∧
        (printRun e L).wrap_next = false
      else (printRun e L).cursor_col = e.cols - 1 ∧ (printRun e L).wrap_next = true) ∧
    (printRun e L).cursor_row = e.cursor_row ∧
    (printRun e L).scrollback = e.scrollback ∧
    (printRun e L).rows = e.rows ∧ (printRun e L).cols = e.cols ∧
    (printRun e L).scroll_top = e.scroll_top ∧
    (printRun e L).scroll_bottom = e.scroll_bottom ∧
    (printRun e L).auto_wrap = e.auto_wrap ∧
    (printRun e L).alt_grid = e.alt_grid ∧
    (printRun e L).current_attr = e.current_attr ∧
    (printRun e L).grid.length = e.grid.length ∧
    (∀ i, i ≠ e.cursor_row → (printRun e L).grid.getD i [] = e.grid.getD i []) ∧
    (∀ i, ((printRun e L).grid.getD i []).length = (e.grid.getD i []).length) := by
  induction L generalizing e with
  | nil =>
    refine ⟨?_, rfl, rfl, rfl, rfl, rfl, rfl, rfl, rfl, rfl, rfl,
      fun i hi => rfl, fun i => rfl⟩
    simp only [List.length_nil, Nat.add_zero]
    rw [if_pos hcc]
    exact ⟨rfl, hw⟩
  | cons ch L2 ih =>
    have hstep : printRun e (ch :: L2) = printRun (e.put_char ch) L2 := rfl
    obtain ⟨Fr, Fsb, Frw, Fco, Fst, Fsbm, Faw, Fag, Fac, Fca⟩ :=
      put_char_no_wrap_fields e ch hw
    have C := put_char_no_wrap_cursor e ch hw hcc
    obtain ⟨Gl, Gne, Glen⟩ := put_char_no_wrap_grid e ch hw
    by_cases hlt : e.cursor_col + 1 < e.cols
    · rw [if_pos hlt] at C
      obtain ⟨Cc, Cw⟩ := C
      have ih2 := ih (e.put_char ch) Cw
        (by rw [Cc, Fco]; omega)
        (by rw [Cc, Fco]; simp at hlen ⊢; omega)
        (by rw [Faw]; exact hauto)
      obtain ⟨ih1, ihr, ihsb, ihrw, ihco, ihst, ihsbm, ihaw, ihag, ihca, ihl, ihne, ihlen⟩ := ih2
      rw [hstep]
      refine ⟨?_, by rw [ihr, Fr], by rw [ihsb, Fsb], by rw [ihrw, Frw],
        by rw [ihco, Fco], by rw [ihst, Fst], by rw [ihsbm, Fsbm],
        by rw [ihaw, Faw], by rw [ihag, Fag], by rw [ihca, Fca],
        by rw [ihl, Gl], ?_, ?_⟩
      · rw [Cc, Fco] at ih1
        simp only [List.length_cons]
        by_cases hcond : e.cursor_col + (L2.length + 1) < e.cols
        · rw [if_pos hcond]
          rw [if_pos (by omega)] at ih1
          refine ⟨?_, ih1.2⟩
          rw [ih1.1]
          omega
        · rw [if_neg hcond]
          rw [if_neg (by omega)] at ih1
          exact ih1
      · intro i hi
        rw [ihne i (by rw [Fr]; exact hi), Gne i hi]
      · intro i
        rw [ihlen i, Glen i]
    · rw [if_neg hlt] at C
      obtain ⟨Cc, Cw⟩ := C
      have hL2 : L2 = [] := by
        have := hlen
        simp only [List.length_cons] at this
        have : L2.length = 0 := by omega
        exact List.length_eq_zero.mp this
      subst hL2
      rw [hstep]
      have hfin : printRun (e.put_char ch) [] = e.put_char ch := rfl
      rw [hfin]
      refine ⟨?_, Fr, Fsb, Frw, Fco, Fst, Fsbm, Faw, Fag, Fca, Gl, Gne, Glen⟩
      simp only [List.length_cons, List.length_nil, Nat.zero_add]
      rw [if_neg (by omega)]
      refine ⟨by rw [Cc]; omega, by rw [Cw]; exact hauto⟩

/-- Effect of one `put_char` when a wrap is pending: the deferred wrap is
performed first — cursor to column 0 of the next row (scrolling when the
cursor sits on the bottom of the scroll region) — and only then is the
character written, landing in column 0 of the new row, after which the
cursor advances to column 1. -/
theorem put_char_wrap_spec (s : TerminalEmulator) (ch : Char)
    (hw : s.wrap_next = true) (hgl : s.grid.length = s.rows)
    (hrow : s.cursor_row < s.rows)
    (hc2 : 2 ≤ s.cols)
    (hrl : ∀ i, i < s.rows → (s.grid.getD i []).length = s.cols) :
    (s.put_char ch).cursor_row =
      (if s.cursor_row = s.scroll_bottom then s.cursor_row
       else if s.cursor_row < s.rows - 1 then s.cursor_row + 1 else s.cursor_row) ∧
    (s.put_char ch).cursor_col = 1 ∧
    (((s.put_char ch).grid.getD
      (if s.cursor_row = s.scroll_bottom then s.cursor_row
       else if s.cursor_row < s.rows - 1 then s.cursor_row + 1 else s.cursor_row) []).getD
      0 Cell.default).c = ch := by
  by_cases hcase : s.cursor_row = s.scroll_bottom
  · simp only [if_pos hcase]
    have hnl : TerminalEmulator.newline { s with cursor_col := 0 } =
        TerminalEmulator.scroll_up { s with cursor_col := 0 } := by
      unfold TerminalEmulator.newline
      rw [if_pos (hcase : ({ s with cursor_col := 0 } : TerminalEmulator).cursor_row =
        ({ s with cursor_col := 0 } : TerminalEmulator).scroll_bottom)]
    obtain ⟨⟨SUc, SUr, SUcr, SUcc, SUst, SUsb, SUag, SUac, SUwn, SUaw, SUca, SUsv, SUso⟩,
      SUl, SUsbk, SUg⟩ :=
      scroll_up_spec ({ s with cursor_col := 0 })
        (by show s.scroll_bottom < s.grid.length; omega)
    have A1 : (TerminalEmulator.scroll_up { s with cursor_col := 0 }).cursor_row = s.cursor_row :=
      SUcr.trans rfl
    have A2 : (TerminalEmulator.scroll_up { s with cursor_col := 0 }).rows = s.rows :=
      SUr.trans rfl
    have A3 : (TerminalEmulator.scroll_up { s with cursor_col := 0 }).cols = s.cols :=
      SUc.trans rfl
    have A4 : (TerminalEmulator.scroll_up { s with cursor_col := 0 }).cursor_col = 0 :=
      SUcc.trans rfl
    have A5 : (TerminalEmulator.scroll_up { s with cursor_col := 0 }).grid.length
        = s.grid.length := SUl.trans rfl
    have A6 : ∀ i, (TerminalEmulator.scroll_up { s with cursor_col := 0 }).grid.getD i [] =
        if i = s.scroll_bottom then List.replicate s.cols Cell.default
        else if s.scroll_top ≤ i ∧ i < s.scroll_bottom then s.grid.getD (i + 1) []
        else s.grid.getD i [] := fun i => (SUg i).trans rfl
    unfold TerminalEmulator.put_char
    rw [if_pos hw, hnl]
    simp only [A1, A2, A3, A4]
    rw [if_pos (⟨hrow, by omega⟩ : s.cursor_row < s.rows ∧ (0 : Nat) < s.cols)]
    rw [if_pos (by omega : (0 : Nat) < s.cols - 1)]
    refine ⟨rfl, rfl, ?_⟩
    rw [getD_set_self]
    rw [A5]
    rw [if_pos (by omega : s.cursor_row < s.grid.length)]
    rw [A6 s.cursor_row, if_pos hcase]
    rw [getD_set_self]
    rw [if_pos (by simp; omega)]
  · simp only [if_neg hcase]
    by_cases h2 : s.cursor_row < s.rows - 1
    · simp only [if_pos h2]
      have hnl : TerminalEmulator.newline { s with cursor_col := 0 } =
          { s with cursor_col := 0, cursor_row := s.cursor_row + 1 } := by
        unfold TerminalEmulator.newline
        rw [if_neg (hcase : ¬ ({ s with cursor_col := 0 } : TerminalEmulator).cursor_row =
          ({ s with cursor_col := 0 } : TerminalEmulator).scroll_bottom)]
        rw [if_pos (h2 : ({ s with cursor_col := 0 } : TerminalEmulator).cursor_row <
          ({ s with cursor_col := 0 } : TerminalEmulator).rows - 1)]
      unfold TerminalEmulator.put_char
      rw [if_pos hw, hnl]
      simp only []
      rw [if_pos (⟨by omega, by omega⟩ : s.cursor_row + 1 < s.rows ∧ (0 : Nat) < s.cols)]
      rw [if_pos (by omega : (0 : Nat) < s.cols - 1)]
      refine ⟨rfl, rfl, ?_⟩
      rw [getD_set_self]
      rw [if_pos (by omega : s.cursor_row + 1 < s.grid.length)]
      rw [getD_set_self]
      rw [if_pos (by rw [hrl (s.cursor_row + 1) (by omega)]; omega)]
    · simp only [if_neg h2]
      have hnl : TerminalEmulator.newline { s with cursor_col := 0 } =
          { s with cursor_col := 0 } := by
        unfold TerminalEmulator.newline
        rw [if_neg (hcase : ¬ ({ s with cursor_col := 0 } : TerminalEmulator).cursor_row =
          ({ s with cursor_col := 0 } : TerminalEmulator).scroll_bottom)]
        rw [if_neg (h2 : ¬ ({ s with cursor_col := 0 } : TerminalEmulator).cursor_row <
          ({ s with cursor_col := 0 } : TerminalEmulator).rows - 1)]
      unfold TerminalEmulator.put_char
      rw [if_pos hw, hnl]
      simp only []
      rw [if_pos (⟨hrow, by omega⟩ : s.cursor_row < s.rows ∧ (0 : Nat) < s.cols)]
      rw [if_pos (by omega : (0 : Nat) < s.cols - 1)]
      refine ⟨rfl, rfl, ?_⟩
      rw [getD_set_self]
      rw [if_pos (by omega : s.cursor_row < s.grid.length)]
      rw [getD_set_self]
      rw [if_pos (by rw [hrl s.cursor_row hrow]; omega)]

/-- C5: with auto-wrap enabled and the cursor at column 0, printing exactly
`cols` printable characters leaves the cursor on the last column with only
the pending-wrap flag raised — the cursor row, the scrollback and every
other grid row are untouched (no blank new line appears) — and the wrap to
column 0 of the next row (scrolling when the cursor is on the bottom of the
scroll region) happens only when one further printable character arrives,
which then lands in column 0 of that next row. -/
theorem deferred_wrap (e : TerminalEmulator) (L : List Char) (ch : Char)
    (hauto : e.auto_wrap = true) (hw : e.wrap_next = false)
    (hcol : e.cursor_col = 0) (hlen : L.length = e.cols)
    (hrow : e.cursor_row < e.rows) (hgl : e.grid.length = e.rows)
    (hrl : ∀ i, i < e.rows → (e.grid.getD i []).length = e.cols)
    (hc2 : 2 ≤ e.cols) :
    ((e.processEvents (L.map Event.print)).cursor_col = e.cols - 1 ∧
     (e.processEvents (L.map Event.print)).wrap_next = true ∧
     (e.processEvents (L.map Event.print)).cursor_row = e.cursor_row ∧
     (e.processEvents (L.map Event.print)).scrollback = e.scrollback ∧
     (e.processEvents (L.map Event.print)).rows = e.rows ∧
     (e.processEvents (L.map Event.print)).cols = e.cols ∧
     (∀ i, i ≠ e.cursor_row →
       (e.processEvents (L.map Event.print)).grid.getD i [] = e.grid.getD i [])) ∧
    ((e.processEvents (L.map Event.print ++ [Event.print ch])).cursor_row =
       (if e.cursor_row = e.scroll_bottom then e.cursor_row
        else if e.cursor_row < e.rows - 1 then e.cursor_row + 1 else e.cursor_row) ∧
     (e.processEvents (L.map Event.print ++ [Event.print ch])).cursor_col = 1 ∧
     (((e.processEvents (L.map Event.print ++ [Event.print ch])).grid.getD
        (if e.cursor_row = e.scroll_bottom then e.cursor_row
         else if e.cursor_row < e.rows - 1 then e.cursor_row + 1 else e.cursor_row)
        []).getD 0 Cell.default).c = ch) := by
  have hP : e.processEvents (L.map Event.print) =
      printRun { e with scroll_offset := 0 } L := by
    unfold TerminalEmulator.processEvents printRun
    rw [List.foldl_map]
    rfl
  have PR := print_run_spec L { e with scroll_offset := 0 }
    hw (by show e.cursor_col < e.cols; omega)
    (by show e.cursor_col + L.length ≤ e.cols; omega) hauto
  rw [if_neg (by show ¬ (e.cursor_col + L.length < e.cols); omega)] at PR
  obtain ⟨⟨Pc, Pw⟩, Pr, Psb, Prw, Pco, Pst, Psbt, Paw, Pag, Pca, Pl, Pne, Plen⟩ := PR
  have hQ : e.processEvents (L.map Event.print ++ [Event.print ch]) =
      TerminalEmulator.put_char ch (printRun { e with scroll_offset := 0 } L) := by
    unfold TerminalEmulator.processEvents
    rw [List.foldl_append, List.foldl_map]
    rfl
  have W := put_char_wrap_spec (printRun { e with scroll_offset := 0 } L) ch
    Pw
    (by rw [Pl, Prw]; exact hgl)
    (by rw [Pr, Prw]; exact hrow)
    (by rw [Pco]; exact hc2)
    (by
      intro i hi
      rw [Plen i, Pco]
      rw [Prw] at hi
      exact hrl i hi)
  rw [Pr.trans rfl, (Psbt.trans rfl : (printRun { e with scroll_offset := 0 } L).scroll_bottom = e.scroll_bottom),
    (Prw.trans rfl : (printRun { e with scroll_offset := 0 } L).rows = e.rows)] at W
  constructor
  · rw [hP]
    exact ⟨Pc.trans rfl, Pw, Pr.trans rfl, Psb.trans rfl, Prw.trans rfl, Pco.trans rfl,
      fun i hi => (Pne i hi).trans rfl⟩
  · rw [hQ]
    exact W

/-- Witness for `deferred_wrap` at a concrete input: a 3 by 2 emulator
receiving exactly 3 printable characters and then one more. -/
theorem deferred_wrap_witness :
    ((TerminalEmulator.new 3 2).processEvents
      (['a', 'b', 'c'].map Event.print)).wrap_next = true ∧
    ((TerminalEmulator.new 3 2).processEvents
      (['a', 'b', 'c'].map Event.print)).scrollback = [] ∧
    ((TerminalEmulator.new 3 2).processEvents
      (['a', 'b', 'c'].map Event.print ++ [Event.print 'd'])).cursor_col = 1 := by
  have H := deferred_wrap (TerminalEmulator.new 3 2) ['a', 'b', 'c'] 'd'
    rfl rfl rfl (by decide) (by decide) (by decide)
    (by intro i hi; have h2 : i < 2 := hi; interval_cases i <;> decide) (by decide)
  exact ⟨H.1.2.1, (H.1.2.2.2.1).trans rfl, H.2.2.1⟩

/-! ### C6: line feed at the bottom of the scroll region -/

/-- C6: a line feed with the cursor on the bottom row of the active scroll
region shifts the rows of the region up by one, blanks the bottom row of the
region, leaves every row outside the region unchanged, and appends the row
leaving the top of the region to scrollback exactly when the region top is
row 0 (and the primary screen is live); in particular a partial scroll
region never grows the scrollback.  The cursor row does not move. -/
theorem linefeed_at_region_bottom (e : TerminalEmulator)
    (hcur : e.cursor_row = e.scroll_bottom)
    (hgl : e.grid.length = e.rows) (hsb : e.scroll_bottom < e.rows)
    (hst : e.scroll_top ≤ e.scroll_bottom) :
    (∀ i, e.scroll_top ≤ i → i < e.scroll_bottom →
       (e.processEvents [Event.execute 10]).grid.getD i [] = e.grid.getD (i + 1) []) ∧
    (e.processEvents [Event.execute 10]).grid.getD e.scroll_bottom [] =
      List.replicate e.cols Cell.default ∧
    (∀ i, i < e.scroll_top ∨ e.scroll_bottom < i →
       (e.processEvents [Event.execute 10]).grid.getD i [] = e.grid.getD i []) ∧
    (e.processEvents [Event.execute 10]).scrollback =
      (if e.scroll_top = 0 ∧ e.alt_grid = none
       then e.scrollback ++ [e.grid.getD 0 []] else e.scrollback) ∧
    (e.scroll_top ≠ 0 →
      (e.processEvents [Event.execute 10]).scrollback.length = e.scrollback.length) ∧
    (e.processEvents [Event.execute 10]).cursor_row = e.cursor_row := by
  have hnl : TerminalEmulator.newline { e with scroll_offset := 0 } =
      TerminalEmulator.scroll_up { e with scroll_offset := 0 } := by
    unfold TerminalEmulator.newline
    rw [if_pos (hcur : ({ e with scroll_offset := 0 } : TerminalEmulator).cursor_row =
      ({ e with scroll_offset := 0 } : TerminalEmulator).scroll_bottom)]
  have h0 : e.processEvents [Event.execute 10] =
      { TerminalEmulator.scroll_up { e with scroll_offset := 0 } with wrap_next := false } := by
    show { TerminalEmulator.newline { e with scroll_offset := 0 } with wrap_next := false } =
      { TerminalEmulator.scroll_up { e with scroll_offset := 0 } with wrap_next := false }
    rw [hnl]
  obtain ⟨⟨SUc, SUr, SUcr, SUcc, SUst, SUsb, SUag, SUac, SUwn, SUaw, SUca, SUsv, SUso⟩,
    SUl, SUsbk, SUg⟩ :=
    scroll_up_spec ({ e with scroll_offset := 0 })
      (by show e.scroll_bottom < e.grid.length; omega)
  have A6 : ∀ i, (TerminalEmulator.scroll_up { e with scroll_offset := 0 }).grid.getD i [] =
      if i = e.scroll_bottom then List.replicate e.cols Cell.default
      else if e.scroll_top ≤ i ∧ i < e.scroll_bottom then e.grid.getD (i + 1) []
      else e.grid.getD i [] := fun i => (SUg i).trans rfl
  have A7 : (TerminalEmulator.scroll_up { e with scroll_offset := 0 }).scrollback =
      (if e.scroll_top = 0 ∧ e.alt_grid = none
       then e.scrollback ++ [e.grid.getD 0 []] else e.scrollback) := SUsbk.trans rfl
  rw [h0]
  refine ⟨?_, ?_, ?_, ?_, ?_, ?_⟩
  · intro i h1 h2
    show (TerminalEmulator.scroll_up { e with scroll_offset := 0 }).grid.getD i [] =
      e.grid.getD (i + 1) []
    rw [A6 i, if_neg (by omega), if_pos ⟨h1, h2⟩]
  · show (TerminalEmulator.scroll_up { e with scroll_offset := 0 }).grid.getD
      e.scroll_bottom [] = List.replicate e.cols Cell.default
    rw [A6 e.scroll_bottom, if_pos rfl]
  · intro i hi
    show (TerminalEmulator.scroll_up { e with scroll_offset := 0 }).grid.getD i [] =
      e.grid.getD i []
    rw [A6 i, if_neg (by omega), if_neg (by omega)]
  · exact A7
  · intro hne
    show (TerminalEmulator.scroll_up { e with scroll_offset := 0 }).scrollback.length =
      e.scrollback.length
    rw [A7, if_neg (by intro h; exact hne h.1)]
  · exact (SUcr.trans rfl : _ = e.cursor_row)

/-- Witness for `linefeed_at_region_bottom`: a 2 by 2 emulator with `P` on
row 0 and the cursor on row 1 (the bottom of the default full-screen scroll
region); the line feed pushes row 0 into scrollback. -/
theorem linefeed_at_region_bottom_witness :
    (((TerminalEmulator.new 2 2).processEvents
        [Event.print 'P', Event.execute 10]).processEvents
      [Event.execute 10]).scrollback =
      (if ((TerminalEmulator.new 2 2).processEvents
            [Event.print 'P', Event.execute 10]).scroll_top = 0 ∧
          ((TerminalEmulator.new 2 2).processEvents
            [Event.print 'P', Event.execute 10]).alt_grid = none
       then ((TerminalEmulator.new 2 2).processEvents
            [Event.print 'P', Event.execute 10]).scrollback ++
          [((TerminalEmulator.new 2 2).processEvents
            [Event.print 'P', Event.execute 10]).grid.getD 0 []]
       else ((TerminalEmulator.new 2 2).processEvents
            [Event.print 'P', Event.execute 10]).scrollback) ∧
    (((TerminalEmulator.new 2 2).processEvents
        [Event.print 'P', Event.execute 10]).processEvents
      [Event.execute 10]).cursor_row = 1 := by
  have H := linefeed_at_region_bottom
    ((TerminalEmulator.new 2 2).processEvents [Event.print 'P', Event.execute 10])
    (by decide) (by decide) (by decide) (by decide)
  exact ⟨H.2.2.2.1, (H.2.2.2.2.2).trans (by decide)⟩

theorem altPres_refl (e : TerminalEmulator) : AltPres e e :=
  ⟨rfl, rfl, rfl, rfl, Nat.le_refl _⟩

theorem altPres_trans {a b c : TerminalEmulator} (h1 : AltPres a b) (h2 : AltPres b c) :
    AltPres a c :=
  ⟨h2.1.trans h1.1, h2.2.1.trans h1.2.1, h2.2.2.1.trans h1.2.2.1,
    h2.2.2.2.1.trans h1.2.2.2.1, h2.2.2.2.2.trans h1.2.2.2.2⟩

theorem scroll_up_altPres (e : TerminalEmulator) (h : e.alt_grid.isSome = true) :
    AltPres e e.scroll_up := by
  simp only [TerminalEmulator.scroll_up]
  rw [if_neg (by
    rintro ⟨-, h2⟩
    rw [h2] at h
    exact Bool.false_ne_true h)]
  exact ⟨rfl, rfl, rfl, rfl, Nat.le_refl _⟩

theorem scroll_down_altPres (e : TerminalEmulator) : AltPres e e.scroll_down :=
  ⟨rfl, rfl, rfl, rfl, Nat.le_refl _⟩

theorem newline_altPres (e : TerminalEmulator) (h : e.alt_grid.isSome = true) :
    AltPres e e.newline := by
  unfold TerminalEmulator.newline
  split_ifs
  · exact scroll_up_altPres e h
  · exact ⟨rfl, rfl, rfl, rfl, Nat.le_refl _⟩
  · exact altPres_refl e

theorem put_char_altPres (e : TerminalEmulator) (ch : Char)
    (h : e.alt_grid.isSome = true) : AltPres e (e.put_char ch) := by
  simp only [TerminalEmulator.put_char]
  have N := newline_altPres ({ e with cursor_col := 0 }) h
  split_ifs <;>
    first
      | exact altPres_refl e
      | exact ⟨rfl, rfl, rfl, rfl, Nat.le_refl _⟩
      | exact ⟨N.1, N.2.1, N.2.2.1, N.2.2.2.1, N.2.2.2.2⟩

theorem execByte_altPres (e : TerminalEmulator) (b : Nat)
    (h : e.alt_grid.isSome = true) : AltPres e (e.execByte b) := by
  simp only [TerminalEmulator.execByte]
  have N := newline_altPres e h
  split_ifs <;>
    first
      | exact altPres_refl e
      | exact ⟨rfl, rfl, rfl, rfl, Nat.le_refl _⟩
      | exact ⟨N.1, N.2.1, N.2.2.1, N.2.2.2.1, N.2.2.2.2⟩

theorem erase_in_display_altPres (mode : Nat) (e : TerminalEmulator) :
    AltPres e (e.erase_in_display mode) := by
  simp only [TerminalEmulator.erase_in_display]
  split_ifs <;>
    first
      | exact ⟨rfl, rfl, rfl, rfl, Nat.le_refl _⟩
      | exact ⟨rfl, rfl, rfl, rfl, by simp⟩
      | exact altPres_refl e

theorem erase_in_line_altPres (mode : Nat) (e : TerminalEmulator) :
    AltPres e (e.erase_in_line mode) := by
  simp only [TerminalEmulator.erase_in_line]
  split_ifs <;>
    first
      | exact ⟨rfl, rfl, rfl, rfl, Nat.le_refl _⟩
      | exact altPres_refl e

theorem insertLinesLoop_altPres (fuel : Nat) (e : TerminalEmulator) :
    AltPres e (insertLinesLoop fuel e) := by
  induction fuel generalizing e with
  | zero => exact altPres_refl e
  | succ f ih =>
    simp only [insertLinesLoop]
    refine altPres_trans ?_ (ih _)
    split_ifs <;> exact ⟨rfl, rfl, rfl, rfl, Nat.le_refl _⟩

theorem deleteLinesLoop_altPres (fuel : Nat) (e : TerminalEmulator) :
    AltPres e (deleteLinesLoop fuel e) := by
  induction fuel generalizing e with
  | zero => exact altPres_refl e
  | succ f ih =>
    simp only [deleteLinesLoop]
    refine altPres_trans ?_ (ih _)
    split_ifs <;> exact ⟨rfl, rfl, rfl, rfl, Nat.le_refl _⟩

theorem scrollUpLoop_altPres (fuel : Nat) (e : TerminalEmulator)
    (h : e.alt_grid.isSome = true) : AltPres e (scrollUpLoop fuel e) := by
  induction fuel generalizing e with
  | zero => exact altPres_refl e
  | succ f ih =>
    unfold scrollUpLoop
    have h1 := scroll_up_altPres e h
    refine altPres_trans h1 (ih _ ?_)
    rw [h1.1]
    exact h

theorem scrollDownLoop_altPres (fuel : Nat) (e : TerminalEmulator) :
    AltPres e (scrollDownLoop fuel e) := by
  induction fuel generalizing e with
  | zero => exact altPres_refl e
  | succ f ih =>
    unfold scrollDownLoop
    exact altPres_trans (scroll_down_altPres e) (ih _)

theorem enter_alt_screen_of_isSome (e : TerminalEmulator)
    (h : e.alt_grid.isSome = true) : e.enter_alt_screen = e := by
  unfold TerminalEmulator.enter_alt_screen
  rw [if_neg (by
    intro h2
    rw [h2] at h
    exact Bool.false_ne_true h)]

theorem modeSetOne_altPres (e : TerminalEmulator) (p : Nat)
    (h : e.alt_grid.isSome = true) : AltPres e (modeSetOne e p) := by
  unfold modeSetOne
  split_ifs
  · exact ⟨rfl, rfl, rfl, rfl, Nat.le_refl _⟩
  · exact ⟨rfl, rfl, rfl, rfl, Nat.le_refl _⟩
  · exact ⟨rfl, rfl, rfl, rfl, Nat.le_refl _⟩
  · rw [enter_alt_screen_of_isSome e h]
    exact altPres_refl e
  · rw [enter_alt_screen_of_isSome
      ({ e with saved_cursor := some (e.cursor_row, e.cursor_col, e.current_attr) }) h]
    exact ⟨rfl, rfl, rfl, rfl, Nat.le_refl _⟩
  · exact altPres_refl e

theorem modeResetOne_altPres (e : TerminalEmulator) (p : Nat)
    (h : e.alt_grid.isSome = true)
    (hp : ¬ (p = 47 ∨ p = 1047)) (hp2 : p ≠ 1049) : AltPres e (modeResetOne e p) := by
  unfold modeResetOne
  rw [if_neg hp, if_neg hp2]
  split_ifs <;>
    first
      | exact ⟨rfl, rfl, rfl, rfl, Nat.le_refl _⟩
      | exact altPres_refl e

theorem foldModeSet_altPres (ps : List Nat) (e : TerminalEmulator)
    (h : e.alt_grid.isSome = true) : AltPres e (ps.foldl modeSetOne e) := by
  induction ps generalizing e with
  | nil => exact altPres_refl e
  | cons p ps ih =>
    have h1 := modeSetOne_altPres e p h
    refine altPres_trans h1 (ih _ ?_)
    rw [h1.1]
    exact h

theorem foldModeReset_altPres (ps : List Nat) (e : TerminalEmulator)
    (h : e.alt_grid.isSome = true)
    (hps : ∀ p ∈ ps, ¬ (p = 47 ∨ p = 1047 ∨ p = 1049)) :
    AltPres e (ps.foldl modeResetOne e) := by
  induction ps generalizing e with
  | nil => exact altPres_refl e
  | cons p ps ih =>
    have hp := hps p (List.mem_cons_self p ps)
    have h1 := modeResetOne_altPres e p h (by tauto) (by tauto)
    refine altPres_trans h1 (ih _ ?_ ?_)
    · rw [h1.1]
      exact h
    · intro q hq
      exact hps q (List.mem_cons_of_mem p hq)

theorem handle_sgr_altPres (ps : List Nat) (e : TerminalEmulator) :
    AltPres e (e.handle_sgr ps) := by
  unfold TerminalEmulator.handle_sgr
  split_ifs <;> exact ⟨rfl, rfl, rfl, rfl, Nat.le_refl _⟩

set_option maxHeartbeats 2000000 in
theorem csi_dispatch_altPres (ps : List (List Nat)) (ins : List Nat) (a : Char)
    (e : TerminalEmulator) (h : e.alt_grid.isSome = true)
    (hex : altExiting (Event.csi ps ins a) = false) :
    AltPres e (TerminalEmulator.csi_dispatch ps ins a e) := by
  unfold TerminalEmulator.csi_dispatch
  lift_lets
  intros
  by_cases h1 : a = 'A'
  · rw [if_pos h1]; exact ⟨rfl, rfl, rfl, rfl, Nat.le_refl _⟩
  rw [if_neg h1]
  by_cases h2 : a = 'B'
  · rw [if_pos h2]; exact ⟨rfl, rfl, rfl, rfl, Nat.le_refl _⟩
  rw [if_neg h2]
  by_cases h3 : a = 'C'
  · rw [if_pos h3]; exact ⟨rfl, rfl, rfl, rfl, Nat.le_refl _⟩
  rw [if_neg h3]
  by_cases h4 : a = 'D'
  · rw [if_pos h4]; exact ⟨rfl, rfl, rfl, rfl, Nat.le_refl _⟩
  rw [if_neg h4]
  by_cases h5 : a = 'E'
  · rw [if_pos h5]; exact ⟨rfl, rfl, rfl, rfl, Nat.le_refl _⟩
  rw [if_neg h5]
  by_cases h6 : a = 'F'
  · rw [if_pos h6]; exact ⟨rfl, rfl, rfl, rfl, Nat.le_refl _⟩
  rw [if_neg h6]
  by_cases h7 : a = 'G'
  · rw [if_pos h7]; exact ⟨rfl, rfl, rfl, rfl, Nat.le_refl _⟩
  rw [if_neg h7]
  by_cases h8 : a = 'H' ∨ a = 'f'
  · rw [if_pos h8]; exact ⟨rfl, rfl, rfl, rfl, Nat.le_refl _⟩
  rw [if_neg h8]
  by_cases h9 : a = 'J'
  · rw [if_pos h9]; exact erase_in_display_altPres _ e
  rw [if_neg h9]
  by_cases h10 : a = 'K'
  · rw [if_pos h10]; exact erase_in_line_altPres _ e
  rw [if_neg h10]
  by_cases h11 : a = 'L'
  · rw [if_pos h11]; exact insertLinesLoop_altPres _ e
  rw [if_neg h11]
  by_cases h12 : a = 'M'
  · rw [if_pos h12]; exact deleteLinesLoop_altPres _ e
  rw [if_neg h12]
  by_cases h13 : a = 'P'
  · rw [if_pos h13]
    split
    · exact ⟨rfl, rfl, rfl, rfl, Nat.le_refl _⟩
    · exact altPres_refl e
  rw [if_neg h13]
  by_cases h14 : a = '@'
  · rw [if_pos h14]
    split
    · exact ⟨rfl, rfl, rfl, rfl, Nat.le_refl _⟩
    · exact altPres_refl e
  rw [if_neg h14]
  by_cases h15 : a = 'S'
  · rw [if_pos h15]; exact scrollUpLoop_altPres _ e h
  rw [if_neg h15]
  by_cases h16 : a = 'T'
  · rw [if_pos h16]
    split
    · exact altPres_refl e
    · exact scrollDownLoop_altPres _ e
  rw [if_neg h16]
  by_cases h17 : a = 'X'
  · rw [if_pos h17]
    split
    · exact ⟨rfl, rfl, rfl, rfl, Nat.le_refl _⟩
    · exact altPres_refl e
  rw [if_neg h17]
  by_cases h18 : a = 'd'
  · rw [if_pos h18]; exact ⟨rfl, rfl, rfl, rfl, Nat.le_refl _⟩
  rw [if_neg h18]
  by_cases h19 : a = 'h'
  · rw [if_pos h19]
    split
    · exact foldModeSet_altPres _ e h
    · exact altPres_refl e
  rw [if_neg h19]
  by_cases h20 : a = 'l'
  · rw [if_pos h20]
    split
    · next hq =>
      refine foldModeReset_altPres _ e h ?_
      intro p hp hbad
      refine absurd hex ?_
      subst h20
      simp only [altExiting, Bool.not_eq_false, Bool.and_eq_true, decide_eq_true_eq,
        List.any_eq_true]
      refine ⟨⟨by simp, hq⟩, p, hp, ?_⟩
      rcases hbad with hb | hb | hb <;> simp [hb]
    · exact altPres_refl e
  rw [if_neg h20]
  by_cases h21 : a = 'm'
  · rw [if_pos h21]
    split
    · exact ⟨rfl, rfl, rfl, rfl, Nat.le_refl _⟩
    · exact handle_sgr_altPres _ e
  rw [if_neg h21]
  by_cases h22 : a = 'n'
  · rw [if_pos h22]; exact altPres_refl e
  rw [if_neg h22]
  by_cases h23 : a = 'r'
  · rw [if_pos h23]
    split
    · exact altPres_refl e
    · split
      · exact ⟨rfl, rfl, rfl, rfl, Nat.le_refl _⟩
      · exact ⟨rfl, rfl, rfl, rfl, Nat.le_refl _⟩
  rw [if_neg h23]
  by_cases h24 : a = 's'
  · rw [if_pos h24]
    split
    · exact altPres_refl e
    · exact ⟨rfl, rfl, rfl, rfl, Nat.le_refl _⟩
  rw [if_neg h24]
  by_cases h25 : a = 'u'
  · rw [if_pos h25]
    split
    · exact altPres_refl e
    · exact ⟨rfl, rfl, rfl, rfl, Nat.le_refl _⟩
  rw [if_neg h25]
  exact altPres_refl e

theorem esc_dispatch_altPres (ins : List Nat) (b : Nat) (e : TerminalEmulator)
    (h : e.alt_grid.isSome = true) (hex : altExiting (Event.esc ins b) = false) :
    AltPres e (TerminalEmulator.esc_dispatch ins b e) := by
  have hb99 : ¬ b = 99 := by simpa [altExiting] using hex
  unfold TerminalEmulator.esc_dispatch
  by_cases hb1 : b = 55
  · rw [if_pos hb1]; exact ⟨rfl, rfl, rfl, rfl, Nat.le_refl _⟩
  rw [if_neg hb1]
  by_cases hb2 : b = 56
  · rw [if_pos hb2]
    split
    · exact altPres_refl e
    · exact ⟨rfl, rfl, rfl, rfl, Nat.le_refl _⟩
  rw [if_neg hb2]
  by_cases hb3 : b = 68
  · rw [if_pos hb3]
    exact newline_altPres e h
  rw [if_neg hb3]
  by_cases hb4 : b = 69
  · rw [if_pos hb4]
    have N := newline_altPres ({ e with cursor_col := 0 }) h
    exact ⟨N.1, N.2.1, N.2.2.1, N.2.2.2.1, N.2.2.2.2⟩
  rw [if_neg hb4]
  by_cases hb5 : b = 77
  · rw [if_pos hb5]
    split_ifs
    · exact scroll_down_altPres e
    · exact ⟨rfl, rfl, rfl, rfl, Nat.le_refl _⟩
    · exact altPres_refl e
  rw [if_neg hb5]
  rw [if_neg hb99]
  exact altPres_refl e

theorem applyEvent_altPres (e : TerminalEmulator) (ev : Event)
    (h : e.alt_grid.isSome = true) (hex : altExiting ev = false) :
    AltPres e (e.applyEvent ev) := by
  cases ev with
  | print c => exact put_char_altPres e c h
  | execute b => exact execByte_altPres e b h
  | csi ps ins a => exact csi_dispatch_altPres ps ins a e h hex
  | esc ins b => exact esc_dispatch_altPres ins b e h hex

theorem foldEvents_altPres (S : List Event) (e : TerminalEmulator)
    (h : e.alt_grid.isSome = true) (hS : ∀ ev ∈ S, altExiting ev = false) :
    AltPres e (S.foldl TerminalEmulator.applyEvent e) := by
  induction S generalizing e with
  | nil => exact altPres_refl e
  | cons ev S2 ih =>
    have h1 := applyEvent_altPres e ev h (hS ev (List.mem_cons_self ev S2))
    refine altPres_trans h1 (ih _ ?_ ?_)
    · rw [h1.1]
      exact h
    · intro q hq
      exact hS q (List.mem_cons_of_mem ev hq)

theorem processEvents_altPres (e : TerminalEmulator) (S : List Event)
    (h : e.alt_grid.isSome = true) (hS : ∀ ev ∈ S, altExiting ev = false) :
    AltPres e (e.processEvents S) := by
  unfold TerminalEmulator.processEvents
  have h0 : AltPres e ({ e with scroll_offset := 0 }) :=
    ⟨rfl, rfl, rfl, rfl, Nat.le_refl _⟩
  exact altPres_trans h0 (foldEvents_altPres S _ h hS)

theorem enter_alt_fields (t : TerminalEmulator) (hn : t.alt_grid = none) :
    t.enter_alt_screen.alt_grid = some t.grid ∧
    t.enter_alt_screen.alt_cursor = some (t.cursor_row, t.cursor_col) ∧
    t.enter_alt_screen.cols = t.cols ∧ t.enter_alt_screen.rows = t.rows := by
  unfold TerminalEmulator.enter_alt_screen
  rw [if_pos hn]
  exact ⟨rfl, rfl, rfl, rfl⟩

theorem exit_alt_spec (t : TerminalEmulator) (g : List (List Cell)) (r c : Nat)
    (hg : t.alt_grid = some g) (hc : t.alt_cursor = some (r, c)) :
    t.exit_alt_screen.grid = g ∧
    t.exit_alt_screen.cursor_row = min r (t.rows - 1) ∧
    t.exit_alt_screen.cursor_col = min c (t.cols - 1) := by
  simp only [TerminalEmulator.exit_alt_screen, hg, hc]
  exact ⟨trivial, trivial, trivial⟩

theorem exit_alt_scrollback (t : TerminalEmulator) :
    t.exit_alt_screen.scrollback = t.scrollback := by
  rcases hg : t.alt_grid with _ | g
  · simp only [TerminalEmulator.exit_alt_screen, hg]
  · rcases hc : t.alt_cursor with _ | ⟨r, c⟩
    · simp only [TerminalEmulator.exit_alt_screen, hg, hc]
    · simp only [TerminalEmulator.exit_alt_screen, hg, hc]

/-- C4: from any primary-screen state with the cursor in bounds, entering
the alternate screen (CSI `? 47 h`), processing any sequence of events that
do not themselves leave the alternate screen or fully reset, and exiting
(CSI `? 47 l`) restores exactly the primary grid content and cursor position
that existed before entry; moreover entering when already alternate, and
exiting when already primary, change nothing. -/
theorem alt_screen_roundtrip (e : TerminalEmulator) (S : List Event)
    (hprim : e.alt_grid = none) (hr : e.cursor_row < e.rows) (hc : e.cursor_col < e.cols)
    (hS : ∀ ev ∈ S, altExiting ev = false) :
    ((e.processEvents
        (Event.csi [[47]] [63] 'h' :: (S ++ [Event.csi [[47]] [63] 'l']))).grid = e.grid ∧
     (e.processEvents
        (Event.csi [[47]] [63] 'h' :: (S ++ [Event.csi [[47]] [63] 'l']))).cursor_row =
       e.cursor_row ∧
     (e.processEvents
        (Event.csi [[47]] [63] 'h' :: (S ++ [Event.csi [[47]] [63] 'l']))).cursor_col =
       e.cursor_col) ∧
    (∀ t : TerminalEmulator, t.alt_grid ≠ none → t.enter_alt_screen = t) ∧
    (∀ t : TerminalEmulator, t.alt_grid = none → t.exit_alt_screen = t) := by
  refine ⟨?_, ?_, ?_⟩
  · have hsplit : e.processEvents
        (Event.csi [[47]] [63] 'h' :: (S ++ [Event.csi [[47]] [63] 'l'])) =
        TerminalEmulator.applyEvent
          (S.foldl TerminalEmulator.applyEvent
            (TerminalEmulator.applyEvent { e with scroll_offset := 0 }
              (Event.csi [[47]] [63] 'h')))
          (Event.csi [[47]] [63] 'l') := by
      unfold TerminalEmulator.processEvents
      rw [List.foldl_cons, List.foldl_append]
      rfl
    have h1 : TerminalEmulator.applyEvent { e with scroll_offset := 0 }
        (Event.csi [[47]] [63] 'h') =
        TerminalEmulator.enter_alt_screen { e with scroll_offset := 0 } := rfl
    have EF := enter_alt_fields ({ e with scroll_offset := 0 })
      (hprim : ({ e with scroll_offset := 0 } : TerminalEmulator).alt_grid = none)
    have hsome : (TerminalEmulator.enter_alt_screen
        { e with scroll_offset := 0 }).alt_grid.isSome = true := by
      rw [EF.1]
      rfl
    have AP := foldEvents_altPres S _ hsome hS
    have t2g : (S.foldl TerminalEmulator.applyEvent
        (TerminalEmulator.enter_alt_screen { e with scroll_offset := 0 })).alt_grid =
        some e.grid := by
      rw [AP.1, EF.1]
    have t2c : (S.foldl TerminalEmulator.applyEvent
        (TerminalEmulator.enter_alt_screen { e with scroll_offset := 0 })).alt_cursor =
        some (e.cursor_row, e.cursor_col) := by
      rw [AP.2.1, EF.2.1]
    have t2cols : (S.foldl TerminalEmulator.applyEvent
        (TerminalEmulator.enter_alt_screen { e with scroll_offset := 0 })).cols =
        e.cols := by
      rw [AP.2.2.1, EF.2.2.1]
    have t2rows : (S.foldl TerminalEmulator.applyEvent
        (TerminalEmulator.enter_alt_screen { e with scroll_offset := 0 })).rows =
        e.rows := by
      rw [AP.2.2.2.1, EF.2.2.2]
    have h3 : TerminalEmulator.applyEvent
        (S.foldl TerminalEmulator.applyEvent
          (TerminalEmulator.enter_alt_screen { e with scroll_offset := 0 }))
        (Event.csi [[47]] [63] 'l') =
        TerminalEmulator.exit_alt_screen
          (S.foldl TerminalEmulator.applyEvent
            (TerminalEmulator.enter_alt_screen { e with scroll_offset := 0 })) := rfl
    have EX := exit_alt_spec _ e.grid e.cursor_row e.cursor_col t2g t2c
    rw [hsplit, h1, h3]
    refine ⟨EX.1, ?_, ?_⟩
    · rw [EX.2.1, t2rows]
      omega
    · rw [EX.2.2, t2cols]
      omega
  · intro t ht
    unfold TerminalEmulator.enter_alt_screen
    rw [if_neg ht]
  · intro t ht
    unfold TerminalEmulator.exit_alt_screen
    rw [ht]

/-- Witness for `alt_screen_roundtrip`: a 2 by 2 emulator with an `A`
printed, entering the alternate screen, printing there, and leaving. -/
theorem alt_screen_roundtrip_witness :
    (((TerminalEmulator.new 2 2).processEvents [Event.print 'A']).processEvents
        (Event.csi [[47]] [63] 'h' ::
          ([Event.print 'x', Event.execute 10] ++ [Event.csi [[47]] [63] 'l']))).grid =
      ((TerminalEmulator.new 2 2).processEvents [Event.print 'A']).grid ∧
    (((TerminalEmulator.new 2 2).processEvents [Event.print 'A']).processEvents
        (Event.csi [[47]] [63] 'h' ::
          ([Event.print 'x', Event.execute 10] ++ [Event.csi [[47]] [63] 'l']))).cursor_col =
      ((TerminalEmulator.new 2 2).processEvents [Event.print 'A']).cursor_col := by
  have H := alt_screen_roundtrip
    ((TerminalEmulator.new 2 2).processEvents [Event.print 'A'])
    [Event.print 'x', Event.execute 10]
    (by decide) (by decide) (by decide) (by decide)
  exact ⟨H.1.1, H.1.2.2⟩

/-- C10: while the alternate screen is active, processing any sequence of
events that do not leave the alternate screen never increases the scrollback
length, and neither does a final exit back to the primary screen — a scroll
inside the alternate screen discards the row leaving the top instead of
appending it (erase mode 3 may still clear the scrollback, which only
shortens it). -/
theorem alt_screen_scrollback_monotone (e : TerminalEmulator) (S : List Event)
    (halt : e.alt_grid.isSome = true) (hS : ∀ ev ∈ S, altExiting ev = false) :
    (e.processEvents S).scrollback.length ≤ e.scrollback.length ∧
    (e.processEvents (S ++ [Event.csi [[47]] [63] 'l'])).scrollback.length ≤
      e.scrollback.length := by
  constructor
  · exact (processEvents_altPres e S halt hS).2.2.2.2
  · have hsplit : e.processEvents (S ++ [Event.csi [[47]] [63] 'l']) =
        TerminalEmulator.applyEvent (e.processEvents S) (Event.csi [[47]] [63] 'l') := by
      unfold TerminalEmulator.processEvents
      rw [List.foldl_append]
      rfl
    have h3 : TerminalEmulator.applyEvent (e.processEvents S)
        (Event.csi [[47]] [63] 'l') =
        TerminalEmulator.exit_alt_screen (e.processEvents S) := rfl
    rw [hsplit, h3, ]
    calc (TerminalEmulator.exit_alt_screen (e.processEvents S)).scrollback.length
        = (e.processEvents S).scrollback.length := by rw [exit_alt_scrollback]
      _ ≤ e.scrollback.length := (processEvents_altPres e S halt hS).2.2.2.2

/-- Witness for `alt_screen_scrollback_monotone`: three line feeds inside
the alternate screen of a 2 by 2 emulator grow no scrollback. -/
theorem alt_screen_scrollback_monotone_witness :
    (((TerminalEmulator.new 2 2).processEvents [Event.csi [[47]] [63] 'h']).processEvents
      [Event.execute 10, Event.execute 10, Event.execute 10]).scrollback.length ≤
      ((TerminalEmulator.new 2 2).processEvents
        [Event.csi [[47]] [63] 'h']).scrollback.length := by
  exact (alt_screen_scrollback_monotone
    ((TerminalEmulator.new 2 2).processEvents [Event.csi [[47]] [63] 'h'])
    [Event.execute 10, Event.execute 10, Event.execute 10]
    (by decide) (by decide)).1

theorem readExact_append (l r : List Nat) : readExact l.length (l ++ r) = some (l, r) := by
  induction l with
  | nil => rfl
  | cons x xs ih => simp [readExact, ih]

/-- The greeting and method-list reads of `handle_socks5_client`, for a
well-formed SOCKS5 greeting. -/
theorem handle_socks5_client_parse (co : Socks5Dest → Nat → Bool)
    (methods rest : List Nat) :
    handle_socks5_client co (5 :: methods.length :: (methods ++ rest)) =
      socks5AfterMethods co methods rest := by
  show (match readExact methods.length (methods ++ rest) with
        | none =>
          ({ written := [], outcome := .protoErr, remaining := [] } : Socks5Result)
        | some (ms, rest2) => socks5AfterMethods co ms rest2) =
      socks5AfterMethods co methods rest
  rw [readExact_append]

/-- C7: the SOCKS5 reply bytes are determined by the client bytes as the
claim states.  A greeting whose method list omits 0 receives exactly
`[5, 255]` and the handshake stops with the request bytes unread; a request
whose command byte is not CONNECT (1) receives reply code 7; an unknown
address-type byte receives reply code 8; a failure to open the direct
channel to the resolved destination (IPv4, domain, or IPv6 form) receives
reply code 5; success receives the reply `[5, 0, 0, 1, 0, 0, 0, 0, 0, 0]` —
beginning `[5, 0, 0, 1]` with bound address 0.0.0.0 and port 0 — after
which the relay starts toward the resolved destination. -/
theorem socks5_reply_spec (co : Socks5Dest → Nat → Bool) :
    (∀ methods rest : List Nat, methods.contains 0 = false →
      handle_socks5_client co (5 :: methods.length :: (methods ++ rest)) =
        { written := [5, 255], outcome := .protoErr, remaining := rest }) ∧
    (∀ (methods rest : List Nat) (cmd rsv atyp : Nat),
      methods.contains 0 = true → cmd ≠ 1 →
      handle_socks5_client co
          (5 :: methods.length :: (methods ++ (5 :: cmd :: rsv :: atyp :: rest))) =
        { written := [5, 0, 5, 7, 0, 1, 0, 0, 0, 0, 0, 0], outcome := .protoErr,
          remaining := rest }) ∧
    (∀ (methods rest : List Nat) (rsv atyp : Nat),
      methods.contains 0 = true → atyp ≠ 1 → atyp ≠ 3 → atyp ≠ 4 →
      handle_socks5_client co
          (5 :: methods.length :: (methods ++ (5 :: 1 :: rsv :: atyp :: rest))) =
        { written := [5, 0, 5, 8, 0, 1, 0, 0, 0, 0, 0, 0], outcome := .protoErr,
          remaining := rest }) ∧
    (∀ (methods rest : List Nat) (rsv a b c d ph pl : Nat),
      methods.contains 0 = true →
      handle_socks5_client co
          (5 :: methods.length ::
            (methods ++ (5 :: 1 :: rsv :: 1 :: a :: b :: c :: d :: ph :: pl :: rest))) =
        (if co (.ipv4 a b c d) (256 * ph + pl) then
          { written := [5, 0, 5, 0, 0, 1, 0, 0, 0, 0, 0, 0],
            outcome := .relay (.ipv4 a b c d) (256 * ph + pl), remaining := rest }
         else
          { written := [5, 0, 5, 5, 0, 1, 0, 0, 0, 0, 0, 0], outcome := .protoErr,
            remaining := rest })) ∧
    (∀ (methods rest dom : List Nat) (rsv ph pl : Nat),
      methods.contains 0 = true →
      handle_socks5_client co
          (5 :: methods.length ::
            (methods ++ (5 :: 1 :: rsv :: 3 :: dom.length :: (dom ++ ph :: pl :: rest)))) =
        (if co (.domain dom) (256 * ph + pl) then
          { written := [5, 0, 5, 0, 0, 1, 0, 0, 0, 0, 0, 0],
            outcome := .relay (.domain dom) (256 * ph + pl), remaining := rest }
         else
          { written := [5, 0, 5, 5, 0, 1, 0, 0, 0, 0, 0, 0], outcome := .protoErr,
            remaining := rest })) ∧
    (∀ (methods rest addr : List Nat) (rsv ph pl : Nat),
      methods.contains 0 = true → addr.length = 16 →
      handle_socks5_client co
          (5 :: methods.length ::
            (methods ++ (5 :: 1 :: rsv :: 4 :: (addr ++ ph :: pl :: rest)))) =
        (if co (.ipv6 addr) (256 * ph + pl) then
          { written := [5, 0, 5, 0, 0, 1, 0, 0, 0, 0, 0, 0],
            outcome := .relay (.ipv6 addr) (256 * ph + pl), remaining := rest }
         else
          { written := [5, 0, 5, 5, 0, 1, 0, 0, 0, 0, 0, 0], outcome := .protoErr,
            remaining := rest })) := by
  have hmeth : ∀ (methods : List Nat), methods.contains 0 = true →
      ∀ rest2 : List Nat, socks5AfterMethods co methods rest2 =
        (let r : Socks5Result :=
          match readExact 4 rest2 with
          | none => { written := [], outcome := .protoErr, remaining := [] }
          | some (req, rest3) => socks5AfterRequest co req rest3
        { r with written := [5, 0] ++ r.written }) := by
    intro methods hm rest2
    unfold socks5AfterMethods
    rw [if_neg (not_not_intro hm)]
  refine ⟨?_, ?_, ?_, ?_, ?_, ?_⟩
  · intro methods rest hm
    rw [handle_socks5_client_parse]
    unfold socks5AfterMethods
    rw [if_pos (by rw [hm]; exact Bool.false_ne_true)]
  · intro methods rest cmd rsv atyp hm hcmd
    rw [handle_socks5_client_parse, hmeth methods hm]
    show ({ socks5AfterRequest co [5, cmd, rsv, atyp] rest with
      written := [5, 0] ++ (socks5AfterRequest co [5, cmd, rsv, atyp] rest).written } :
        Socks5Result) = _
    unfold socks5AfterRequest
    rw [if_pos (Or.inr (by simpa using hcmd))]
    rfl
  · intro methods rest rsv atyp hm h1 h3 h4
    rw [handle_socks5_client_parse, hmeth methods hm]
    show ({ socks5AfterRequest co [5, 1, rsv, atyp] rest with
      written := [5, 0] ++ (socks5AfterRequest co [5, 1, rsv, atyp] rest).written } :
        Socks5Result) = _
    unfold socks5AfterRequest
    rw [if_neg (by simp)]
    show ({ socks5ReadDest co atyp rest with
      written := [5, 0] ++ (socks5ReadDest co atyp rest).written } : Socks5Result) = _
    unfold socks5ReadDest
    rw [if_neg h1, if_neg h3, if_neg h4]
    rfl
  · intro methods rest rsv a b c d ph pl hm
    rw [handle_socks5_client_parse, hmeth methods hm]
    show ({ socks5Finish co (.ipv4 a b c d) (256 * ph + pl) rest with
      written := [5, 0] ++ (socks5Finish co (.ipv4 a b c d) (256 * ph + pl) rest).written } :
        Socks5Result) = _
    unfold socks5Finish
    split_ifs <;> rfl
  · intro methods rest dom rsv ph pl hm
    rw [handle_socks5_client_parse, hmeth methods hm]
    show ({ socks5ReadDest co 3 (dom.length :: (dom ++ ph :: pl :: rest)) with
      written := [5, 0] ++
        (socks5ReadDest co 3 (dom.length :: (dom ++ ph :: pl :: rest))).written } :
        Socks5Result) = _
    show ({ (match readExact dom.length (dom ++ ph :: pl :: rest) with
             | none =>
               ({ written := [], outcome := .protoErr, remaining := [] } : Socks5Result)
             | some (dm, rest5) =>
               match readExact 2 rest5 with
               | none => { written := [], outcome := .protoErr, remaining := [] }
               | some (pb, rest6) =>
                 socks5Finish co (.domain dm) (256 * pb.getD 0 0 + pb.getD 1 0) rest6) with
      written := [5, 0] ++
        (match readExact dom.length (dom ++ ph :: pl :: rest) with
         | none =>
           ({ written := [], outcome := .protoErr, remaining := [] } : Socks5Result)
         | some (dm, rest5) =>
           match readExact 2 rest5 with
           | none => { written := [], outcome := .protoErr, remaining := [] }
           | some (pb, rest6) =>
             socks5Finish co (.domain dm) (256 * pb.getD 0 0 + pb.getD 1 0) rest6).written } :
        Socks5Result) = _
    rw [readExact_append]
    show ({ socks5Finish co (.domain dom) (256 * ph + pl) rest with
      written := [5, 0] ++ (socks5Finish co (.domain dom) (256 * ph + pl) rest).written } :
        Socks5Result) = _
    unfold socks5Finish
    split_ifs <;> rfl
  · intro methods rest addr rsv ph pl hm h16
    rw [handle_socks5_client_parse, hmeth methods hm]
    show ({ socks5ReadDest co 4 (addr ++ ph :: pl :: rest) with
      written := [5, 0] ++
        (socks5ReadDest co 4 (addr ++ ph :: pl :: rest)).written } :
        Socks5Result) = _
    show ({ (match readExact 16 (addr ++ ph :: pl :: rest) with
             | none =>
               ({ written := [], outcome := .protoErr, remaining := [] } : Socks5Result)
             | some (ad, rest4) =>
               match readExact 2 rest4 with
               | none => { written := [], outcome := .protoErr, remaining := [] }
               | some (pb, rest5) =>
                 socks5Finish co (.ipv6 ad) (256 * pb.getD 0 0 + pb.getD 1 0) rest5) with
      written := [5, 0] ++
        (match readExact 16 (addr ++ ph :: pl :: rest) with
         | none =>
           ({ written := [], outcome := .protoErr, remaining := [] } : Socks5Result)
         | some (ad, rest4) =>
           match readExact 2 rest4 with
           | none => { written := [], outcome := .protoErr, remaining := [] }
           | some (pb, rest5) =>
             socks5Finish co (.ipv6 ad) (256 * pb.getD 0 0 + pb.getD 1 0) rest5).written } :
        Socks5Result) = _
    rw [← h16, readExact_append]
    show ({ socks5Finish co (.ipv6 addr) (256 * ph + pl) rest with
      written := [5, 0] ++ (socks5Finish co (.ipv6 addr) (256 * ph + pl) rest).written } :
        Socks5Result) = _
    unfold socks5Finish
    split_ifs <;> rfl

/-- Witness for `socks5_reply_spec`: the greeting `[5, 1, 2]` offers only
method 2, so the server answers `[5, 255]` and stops; a CONNECT to
127.0.0.1:80 (atyp 1) and a CONNECT to ::1 port 443 (atyp 4) both receive
the success reply when the channel opens. -/
theorem socks5_reply_spec_witness :
    handle_socks5_client (fun _ _ => true) (5 :: 1 :: ([2] ++ [9, 9])) =
      { written := [5, 255], outcome := .protoErr, remaining := [9, 9] } ∧
    handle_socks5_client (fun _ _ => true)
        (5 :: 1 :: ([0] ++ (5 :: 1 :: 0 :: 1 :: 127 :: 0 :: 0 :: 1 :: 0 :: 80 :: []))) =
      { written := [5, 0, 5, 0, 0, 1, 0, 0, 0, 0, 0, 0],
        outcome := .relay (.ipv4 127 0 0 1) 80, remaining := [] } ∧
    handle_socks5_client (fun _ _ => true)
        (5 :: 1 :: ([0] ++ (5 :: 1 :: 0 :: 4 ::
          ([0, 0, 0, 0, 0, 0, 0, 0, 0, 0, 0, 0, 0, 0, 0, 1] ++ 1 :: 187 :: [])))) =
      { written := [5, 0, 5, 0, 0, 1, 0, 0, 0, 0, 0, 0],
        outcome := .relay (.ipv6 [0, 0, 0, 0, 0, 0, 0, 0, 0, 0, 0, 0, 0, 0, 0, 1]) 443,
        remaining := [] } := by
  refine ⟨?_, ?_, ?_⟩
  · exact (socks5_reply_spec (fun _ _ => true)).1 [2] [9, 9] (by decide)
  · have H := (socks5_reply_spec (fun _ _ => true)).2.2.2.1 [0] [] 0 127 0 0 1 0 80
      (by decide)
    simpa using H
  · have H := (socks5_reply_spec (fun _ _ => true)).2.2.2.2.2 [0] []
      [0, 0, 0, 0, 0, 0, 0, 0, 0, 0, 0, 0, 0, 0, 0, 1] 0 1 187 (by decide) (by decide)
    simpa using H

theorem charCmp_lt {a b : Char} : charCmp a b = .lt ↔ a.toNat < b.toNat := by
  unfold charCmp
  split_ifs <;> simp_all

theorem charCmp_gt {a b : Char} : charCmp a b = .gt ↔ b.toNat < a.toNat := by
  unfold charCmp
  split_ifs <;> simp_all <;> omega

theorem charCmp_eq {a b : Char} : charCmp a b = .eq ↔ a.toNat = b.toNat := by
  unfold charCmp
  split_ifs <;> simp_all <;> omega

theorem listCmp_not_gt_trans :
    ∀ (x y z : List Char), listCmp x y ≠ .gt → listCmp y z ≠ .gt → listCmp x z ≠ .gt := by
  intro x
  induction x with
  | nil =>
    intro y z _ _
    cases z <;> simp [listCmp]
  | cons a xs ih =>
    intro y z h1 h2
    cases y with
    | nil => simp [listCmp] at h1
    | cons b ys =>
      cases z with
      | nil => simp [listCmp] at h2
      | cons c zs =>
        rcases hab : charCmp a b with _ | _ | _
        · rcases hbc : charCmp b c with _ | _ | _
          · have hac : charCmp a c = .lt := by
              rw [charCmp_lt] at hab hbc ⊢
              omega
            simp [listCmp, hac]
          · have hac : charCmp a c = .lt := by
              rw [charCmp_lt] at hab ⊢
              rw [charCmp_eq] at hbc
              omega
            simp [listCmp, hac]
          · simp [listCmp, hbc] at h2
        · rcases hbc : charCmp b c with _ | _ | _
          · have hac : charCmp a c = .lt := by
              rw [charCmp_lt] at hbc ⊢
              rw [charCmp_eq] at hab
              omega
            simp [listCmp, hac]
          · have hac : charCmp a c = .eq := by
              rw [charCmp_eq] at hab hbc ⊢
              omega
            simp only [listCmp, hab] at h1
            simp only [listCmp, hbc] at h2
            simp only [listCmp, hac]
            exact ih ys zs h1 h2
          · simp [listCmp, hbc] at h2
        · simp [listCmp, hab] at h1

theorem listCmp_gt_swap : ∀ (x y : List Char), listCmp x y = .gt → listCmp y x = .lt := by
  intro x
  induction x with
  | nil =>
    intro y h
    cases y <;> simp [listCmp] at h
  | cons a xs ih =>
    intro y h
    cases y with
    | nil => simp [listCmp]
    | cons b ys =>
      rcases hab : charCmp a b with _ | _ | _
      · simp [listCmp, hab] at h
      · have hba : charCmp b a = .eq := by
          rw [charCmp_eq] at hab ⊢
          omega
        simp only [listCmp, hab] at h
        simp only [listCmp, hba]
        exact ih ys h
      · have hba : charCmp b a = .lt := by
          rw [charCmp_gt] at hab
          rw [charCmp_lt]
          omega
        simp [listCmp, hba]

theorem entryCmp_not_gt_iff {a b : SftpEntry} : entryCmp a b ≠ .gt ↔ specLe a b := by
  unfold entryCmp specLe boolCmp
  rcases ha : a.is_dir <;> rcases hb : b.is_dir <;> simp

theorem entryLe_trans {a b c : SftpEntry}
    (h1 : entryCmp a b ≠ .gt) (h2 : entryCmp b c ≠ .gt) : entryCmp a c ≠ .gt := by
  rw [entryCmp_not_gt_iff] at h1 h2 ⊢
  rcases h1 with ⟨u1, v1⟩ | ⟨u1, v1⟩ <;> rcases h2 with ⟨u2, v2⟩ | ⟨u2, v2⟩
  · rw [v1] at u2
    cases u2
  · exact Or.inl ⟨u1, u2 ▸ v1⟩
  · exact Or.inl ⟨u1 ▸ u2, v2⟩
  · exact Or.inr ⟨u1.trans u2, listCmp_not_gt_trans _ _ _ v1 v2⟩

theorem entryCmp_gt_swap {a b : SftpEntry} (h : entryCmp a b = .gt) :
    entryCmp b a ≠ .gt := by
  unfold entryCmp at h ⊢
  rcases ha : a.is_dir <;> rcases hb : b.is_dir <;>
    simp only [ha, hb, boolCmp] at h ⊢ <;> simp_all
  · intro hgt
    have hlt := listCmp_gt_swap _ _ h
    rw [hgt] at hlt
    cases hlt
  · intro hgt
    have hlt := listCmp_gt_swap _ _ h
    rw [hgt] at hlt
    cases hlt

theorem mem_insertSorted (x a : SftpEntry) (l : List SftpEntry) :
    x ∈ insertSorted a l ↔ x = a ∨ x ∈ l := by
  induction l with
  | nil => simp [insertSorted]
  | cons b bs ih =>
    unfold insertSorted
    split_ifs
    · rw [List.mem_cons, ih, List.mem_cons]
      tauto
    · exact List.mem_cons

theorem mem_sortEntries (x : SftpEntry) (l : List SftpEntry) :
    x ∈ sortEntries l ↔ x ∈ l := by
  induction l with
  | nil => simp [sortEntries]
  | cons a as ih =>
    unfold sortEntries
    rw [mem_insertSorted]
    simp [ih]

theorem pairwise_insertSorted (a : SftpEntry) (l : List SftpEntry)
    (h : l.Pairwise (fun x y => entryCmp x y ≠ .gt)) :
    (insertSorted a l).Pairwise (fun x y => entryCmp x y ≠ .gt) := by
  induction l with
  | nil => simp [insertSorted]
  | cons b bs ih =>
    unfold insertSorted
    rw [List.pairwise_cons] at h
    split_ifs with hab
    · rw [List.pairwise_cons]
      constructor
      · intro y hy
        rw [mem_insertSorted] at hy
        rcases hy with rfl | hy
        · exact entryCmp_gt_swap hab
        · exact h.1 y hy
      · exact ih h.2
    · rw [List.pairwise_cons]
      constructor
      · intro y hy
        rcases List.mem_cons.mp hy with rfl | hy
        · exact hab
        · exact entryLe_trans hab (h.1 y hy)
      · rw [List.pairwise_cons]
        exact h

theorem pairwise_sortEntries (l : List SftpEntry) :
    (sortEntries l).Pairwise (fun x y => entryCmp x y ≠ .gt) := by
  induction l with
  | nil => simp [sortEntries]
  | cons a as ih => exact pairwise_insertSorted a (sortEntries as) ih

theorem trimEndSlashes_of_no_trailing (p : List Char) (h : p.getLast? ≠ some '/') :
    trimEndSlashes p = p := by
  unfold trimEndSlashes
  rcases hrev : p.reverse with _ | ⟨c, cs⟩
  · simp
    exact List.reverse_eq_nil_iff.mp hrev
  · have hc : ¬ c = '/' := by
      intro hc
      apply h
      rw [← List.head?_reverse, hrev, hc]
      rfl
    rw [List.dropWhile_cons, if_neg (by simpa using hc)]
    rw [← hrev, List.reverse_reverse]

/-- C8: `list_dir` returns the directory entries excluding `.` and `..`;
each path is the parent joined to the name with exactly one `/` separator
(the root yields `/name`, never `//name`; a parent without a trailing slash
yields `parent/name`); the result is ordered with directories before files
and lexicographically by name within each group; and every other raw entry
does appear in the result. -/
theorem list_dir_spec (path : List Char) (entries : List SftpRawEntry) :
    (∀ en ∈ list_dir path entries, en.name ≠ ['.'] ∧ en.name ≠ ['.', '.']) ∧
    (path = ['/'] → ∀ en ∈ list_dir path entries, en.path = '/' :: en.name) ∧
    (path ≠ ['/'] → path.getLast? ≠ some '/' →
      ∀ en ∈ list_dir path entries, en.path = path ++ '/' :: en.name) ∧
    (list_dir path entries).Pairwise specLe ∧
    (∀ raw ∈ entries, raw.name ≠ ['.'] → raw.name ≠ ['.', '.'] →
      ∃ en ∈ list_dir path entries,
        en.name = raw.name ∧ en.is_dir = raw.is_dir ∧ en.size = raw.size) := by
  have hmem : ∀ en : SftpEntry, en ∈ list_dir path entries ↔
      ∃ raw ∈ entries, raw.name ≠ ['.'] ∧ raw.name ≠ ['.', '.'] ∧
        en = { name := raw.name
               path := if path = ['/'] then '/' :: raw.name
                       else trimEndSlashes path ++ '/' :: raw.name
               is_dir := raw.is_dir
               size := raw.size
               modified := raw.modified } := by
    intro en
    unfold list_dir
    rw [mem_sortEntries, List.mem_filterMap]
    constructor
    · rintro ⟨raw, hraw, hf⟩
      by_cases hcond : raw.name = ['.'] ∨ raw.name = ['.', '.']
      · rw [if_pos hcond] at hf
        cases hf
      · rw [if_neg hcond] at hf
        push_neg at hcond
        exact ⟨raw, hraw, hcond.1, hcond.2, (Option.some_injective _ hf).symm⟩
    · rintro ⟨raw, hraw, h1, h2, rfl⟩
      refine ⟨raw, hraw, ?_⟩
      rw [if_neg (by tauto)]
  refine ⟨?_, ?_, ?_, ?_, ?_⟩
  · intro en hen
    rcases (hmem en).mp hen with ⟨raw, _, h1, h2, rfl⟩
    exact ⟨h1, h2⟩
  · intro hpath en hen
    rcases (hmem en).mp hen with ⟨raw, _, _, _, rfl⟩
    show (if path = ['/'] then '/' :: raw.name
          else trimEndSlashes path ++ '/' :: raw.name) = '/' :: raw.name
    rw [if_pos hpath]
  · intro hpath htrail en hen
    rcases (hmem en).mp hen with ⟨raw, _, _, _, rfl⟩
    show (if path = ['/'] then '/' :: raw.name
          else trimEndSlashes path ++ '/' :: raw.name) = path ++ '/' :: raw.name
    rw [if_neg hpath, trimEndSlashes_of_no_trailing path htrail]
  · exact (pairwise_sortEntries _).imp (fun h => entryCmp_not_gt_iff.mp h)
  · intro raw hraw h1 h2
    refine ⟨_, (hmem _).mpr ⟨raw, hraw, h1, h2, rfl⟩, rfl, rfl, rfl⟩

/-- Witness for `list_dir_spec`: listing the root with a file `b` and a
directory `a` puts the directory first and joins paths with a single
slash. -/
theorem list_dir_spec_witness :
    (list_dir ['/']
      [⟨['b'], false, 3, none⟩, ⟨['a'], true, 0, none⟩]).Pairwise specLe ∧
    ((list_dir ['/']
        [⟨['b'], false, 3, none⟩, ⟨['a'], true, 0, none⟩]).getD 0
        ⟨[], [], false, 0, none⟩).path =
      '/' :: ((list_dir ['/']
        [⟨['b'], false, 3, none⟩, ⟨['a'], true, 0, none⟩]).getD 0
        ⟨[], [], false, 0, none⟩).name := by
  have H := list_dir_spec ['/'] [⟨['b'], false, 3, none⟩, ⟨['a'], true, 0, none⟩]
  exact ⟨H.2.2.2.1, H.2.1 rfl _ (by decide)⟩

/-- C9: `take_error` returns the last recorded failure and clears the single
slot, so a repeated call with no new error in between returns nothing; and
recording two failures in a row retains only the most recent one — the slot
overwrites, it never queues. -/
theorem take_error_spec (s : SshConnectionState) (m1 m2 : String) :
    (take_error s).1 = s.error ∧
    (take_error s).2.error = none ∧
    (take_error (take_error s).2).1 = none ∧
    (take_error (record_error s m1)).1 = some m1 ∧
    (record_error (record_error s m1) m2).error = some m2 ∧
    (take_error (record_error (record_error s m1) m2)).1 = some m2 := by
  exact ⟨rfl, rfl, rfl, rfl, rfl, rfl⟩
